import Mathlib

/-!
# Verification of the Augment-BYOK core against its specification

Shallow embedding of the BYOK extension's core (tool-schema strict-mode
validation and coercion, self-test harness report construction, model
discovery with versioned-URL fallback, chunk-stream collection, schema
sampling, tool-definition de-duplication, model-list merging, and the
runtime-enabled routing guard), together with theorems settling the
frozen claims C1..C10.

JavaScript values flowing through these functions are modelled by the
`Json` inductive below.  JS numbers are modelled as `Int`: none of the
embedded code performs non-integral arithmetic on schema payloads.
Effectful boundaries (HTTP fetches, model streaming, upstream tool
execution) are modelled as explicit oracle records supplied to the
embedded control flow, mirroring the values the awaited calls return.
-/

set_option maxHeartbeats 1000000

namespace ByokSpec

/-- JSON-like value tree: the universe of JS values handled by the
embedded functions.  `num` carries an `Int` (see header note). -/
inductive Json where
  | null : Json
  | bool : Bool → Json
  | num : Int → Json
  | str : String → Json
  | arr : List Json → Json
  | obj : List (String × Json) → Json
deriving Inhabited

namespace Json

/-- First-match field lookup on an object's field list (JS property read;
`none` models `undefined`, including reads on non-objects). -/
def lookup : Json → String → Option Json
  | obj fields, k => go fields k
  | _, _ => none
where
  go : List (String × Json) → String → Option Json
    | [], _ => none
    | (k', v) :: rest, k => if k' = k then some v else go rest k

/-- JS truthiness (`if (x)`)：null/undefined, false, 0, "" are falsy;
objects and arrays are always truthy. -/
def truthy : Json → Bool
  | null => false
  | bool b => b
  | num n => n != 0
  | str s => s != ""
  | arr _ => true
  | obj _ => true

mutual

/-- `String(x)` on a JS value (arrays join their elements with ","
mapping null elements to "", objects print "[object Object]"). -/
def jsString : Json → String
  | null => "null"
  | bool b => if b then "true" else "false"
  | num n => toString n
  | str s => s
  | arr xs => String.intercalate "," (jsStringElems xs)
  | obj _ => "[object Object]"
termination_by structural j => j

/-- Stringify array elements for `Array.prototype.toString` (null and
undefined elements become the empty string). -/
def jsStringElems : List Json → List String
  | [] => []
  | null :: rest => "" :: jsStringElems rest
  | x :: rest => jsString x :: jsStringElems rest
termination_by structural l => l

end

/-- Whitespace trim over the character list (JS `String.prototype.trim`);
behaves as `String.trim` on the strings that occur here, but is
kernel-reducible. -/
def jsTrim (s : String) : String :=
  String.mk (((s.data.dropWhile Char.isWhitespace).reverse.dropWhile Char.isWhitespace).reverse)

/-- Lower-casing over the character list (JS `toLowerCase`); behaves as
`String.toLower` on the ASCII strings that occur here, but is
kernel-reducible. -/
def jsToLower (s : String) : String :=
  String.mk (s.data.map Char.toLower)

/-- `normalizeString(v) = String(v ?? "").trim()` from infra/util,
applied to a JS value (`??` maps null/undefined to ""). -/
def normalizeStringJson : Option Json → String
  | none => ""
  | some null => ""
  | some v => jsTrim (jsString v)

/-- Update the first binding of `k` in a field list, or append `(k, v)`
if absent: the observable effect of a JS property write `o[k] = v`. -/
def setFieldList : List (String × Json) → String → Json → List (String × Json)
  | [], k, v => [(k, v)]
  | (k', v') :: rest, k, v =>
      if k' = k then (k, v) :: rest else (k', v') :: setFieldList rest k v

/-- Property write on an object value (identity on non-objects). -/
def setField : Json → String → Json → Json
  | obj fields, k, v => obj (setFieldList fields k v)
  | j, _, _ => j

end Json

open Json

/-- `normalizeString` on an already-string value, as used on typed
string fields. -/
def normalizeString (s : String) : String := Json.jsTrim s

/-- First-match lookup in a field list (JS property read on a plain
object). -/
def getField : List (String × Json) → String → Option Json
  | [], _ => none
  | (k', v) :: rest, k => if k' = k then some v else getField rest k

/-- `t === "object" || (Array.isArray(t) && t.some((x) =>
normalizeString(x).toLowerCase() === "object"))` where `t` is the
object's `type` field (part_001:412-413). -/
def hasObjectTypeF (fields : List (String × Json)) : Bool :=
  match getField fields "type" with
  | some (Json.str s) => s = "object"
  | some (Json.arr ts) => ts.any (fun x => Json.jsToLower (Json.normalizeStringJson (some x)) = "object")
  | _ => false

/-- `schema.properties` when it is a non-array object, else null
(part_001:414). -/
def propsOfF (fields : List (String × Json)) : Option (List (String × Json)) :=
  match getField fields "properties" with
  | some (Json.obj ps) => some ps
  | _ => none

/-- JS `list.includes(k)` where `k` is a string: only an equal string
element matches under `===`. -/
def jsonIsStr (x : Json) (k : String) : Bool :=
  match x with
  | Json.str s => s = k
  | _ => false

/-- `${path ? path + "." : ""}` ++ segment. -/
def childPath (path seg : String) : String :=
  (if path = "" then "" else path ++ ".") ++ seg

/-- Fuel-indexed core of `validateOpenAiStrictJsonSchema`
(part_001:401-450).  The JS carries a depth `d` with an early return at
`d > 50` and recursive calls at `d + 1`; here `fuel = 51 - d`, so
`fuel = 0` is exactly the JS early return and children run at
`fuel - 1`.  Issues are returned (in push order) instead of mutating an
array. -/
def validateOpenAiStrictGo (fuel : Nat) (schema : Json) (path : String) : List String :=
  match fuel with
  | 0 => []
  | fuel + 1 =>
    match schema with
    | Json.arr xs =>
        (xs.enum.map fun p =>
          validateOpenAiStrictGo fuel p.2 (path ++ "[" ++ toString p.1 ++ "]")).flatten
    | Json.obj fields =>
        let root := if path = "" then "<root>" else path
        let props? := propsOfF fields
        let strictIssues :=
          if hasObjectTypeF fields || props?.isSome then
            (match getField fields "additionalProperties" with
              | some (Json.bool false) => []
              | _ => [root ++ ": additionalProperties must be false"]) ++
            (match getField fields "required" with
              | some (Json.arr req) =>
                  (match props? with
                    | some ps =>
                        (ps.map Prod.fst).filterMap fun k =>
                          if req.any (fun x => jsonIsStr x k) then none
                          else some (root ++ ": required missing \x27" ++ k ++ "\x27")
                    | none => [])
              | _ => [root ++ ": required must be array"])
          else []
        let propIssues :=
          match props? with
          | some ps =>
              (ps.map fun p =>
                validateOpenAiStrictGo fuel p.2 (childPath path ("properties." ++ p.1))).flatten
          | none => []
        -- `schema.<name> != null` guard then recursion (items / prefixItems
        -- / not / if / then / else)
        let fieldIssues := fun (name : String) =>
          match getField fields name with
          | some Json.null => []
          | some v => validateOpenAiStrictGo fuel v (childPath path name)
          | none => []
        -- `Array.isArray(schema.<name>)` guard then recursion on the array
        -- value (anyOf / oneOf / allOf)
        let arrFieldIssues := fun (name : String) =>
          match getField fields name with
          | some (Json.arr xs) => validateOpenAiStrictGo fuel (Json.arr xs) (childPath path name)
          | _ => []
        -- non-array-object guard then recursion into each member
        -- ($defs / definitions)
        let defsIssues := fun (name : String) =>
          match getField fields name with
          | some (Json.obj ps) =>
              (ps.map fun p =>
                validateOpenAiStrictGo fuel p.2 (childPath path (name ++ "." ++ p.1))).flatten
          | _ => []
        strictIssues ++ propIssues ++
          fieldIssues "items" ++ fieldIssues "prefixItems" ++
          fieldIssues "not" ++ fieldIssues "if" ++ fieldIssues "then" ++ fieldIssues "else" ++
          arrFieldIssues "anyOf" ++ arrFieldIssues "oneOf" ++ arrFieldIssues "allOf" ++
          defsIssues "$defs" ++ defsIssues "definitions"
    | _ => []

/-- `validateOpenAiStrictJsonSchema(schema, issues, path, depth)`
(part_001:401): returns the issues pushed.  Scalars (including the JS
falsy values caught by `if (!schema) return`) yield no issues. -/
def validateOpenAiStrictJsonSchema (schema : Json) (path : String) (depth : Nat) : List String :=
  validateOpenAiStrictGo (51 - depth) schema path

/-- Keys of an object's `properties` member (used to build the coerced
`required` list). -/
def propKeysF (fields : List (String × Json)) : List String :=
  match propsOfF fields with
  | some ps => ps.map Prod.fst
  | none => []

/-- Set `additionalProperties:false` and `required` = every declared
property key on a strict-flagged object node. -/
def setStrictFields (fields : List (String × Json)) : List (String × Json) :=
  Json.setFieldList
    (Json.setFieldList fields "required" (Json.arr ((propKeysF fields).map Json.str)))
    "additionalProperties" (Json.bool false)

mutual

/-- Modelled from the spec: `coerceOpenAiStrictJsonSchema`
(core/augment-chat.shared, not under src/) — "The Normalizer must
rewrite schemas to satisfy this (coercion)" where "this" is strict mode:
"every object-typed (sub)schema must set `additionalProperties:false`
and list every declared property key in `required`" (spec §4.2).  The
walk covers exactly the positions the validator walks: array elements,
`properties` members, `items`/`prefixItems`, `not/if/then/else`,
`anyOf/oneOf/allOf`, and `$defs`/`definitions`, recursively. -/
def coerceOpenAiStrictJsonSchema : Json → Json
  | Json.arr xs => Json.arr (coerceStrictList xs)
  | Json.obj fields =>
      let fields1 := coerceStrictFields fields
      if hasObjectTypeF fields1 || (propsOfF fields1).isSome then
        Json.obj (setStrictFields fields1)
      else Json.obj fields1
  | j => j

/-- Coerce every element of an array schema. -/
def coerceStrictList : List Json → List Json
  | [] => []
  | x :: rest => coerceOpenAiStrictJsonSchema x :: coerceStrictList rest

/-- Coerce the schema-position members of an object node, leaving all
other fields untouched. -/
def coerceStrictFields : List (String × Json) → List (String × Json)
  | [] => []
  | (k, v) :: rest => (k, coerceStrictFieldValue k v) :: coerceStrictFields rest

/-- Per-field coercion: subschema positions recurse, `properties` and
`$defs`/`definitions` recurse into each member value, everything else is
left unchanged. -/
def coerceStrictFieldValue (k : String) (v : Json) : Json :=
  if k = "items" ∨ k = "prefixItems" ∨ k = "not" ∨ k = "if" ∨ k = "then" ∨ k = "else" ∨
      k = "anyOf" ∨ k = "oneOf" ∨ k = "allOf" then
    coerceOpenAiStrictJsonSchema v
  else if k = "properties" ∨ k = "$defs" ∨ k = "definitions" then
    match v with
    | Json.obj ps => Json.obj (coerceStrictPairs ps)
    | _ => v
  else v

/-- Coerce each member value of a `properties`/`$defs`/`definitions`
object. -/
def coerceStrictPairs : List (String × Json) → List (String × Json)
  | [] => []
  | (k, v) :: rest => (k, coerceOpenAiStrictJsonSchema v) :: coerceStrictPairs rest

end

/-- Canonical tool definition (spec §3 ToolDef): name, description,
input schema, optional MCP metadata.  The snake_case/camelCase alias
tolerance of the source collapses into one typed field each. -/
structure ToolDef where
  name : String
  description : String := ""
  input_schema : Json := Json.obj []
  mcp_server_name : String := ""
  mcp_tool_name : String := ""
deriving Inhabited

/-- Modelled from the spec: `resolveToolSchema` (core/augment-chat.shared,
not under src/) — resolves a ToolDef's JSON-Schema tree (spec §3: ToolDef
"inputSchema (JSON-Schema-like tree)"). -/
def resolveToolSchema (d : ToolDef) : Json := d.input_schema

/-- Converted OpenAI-responses tool: `{name, description, parameters}`
as read back by the self-test (`tool?.name`, `tool?.parameters`). -/
structure ConvertedResponsesTool where
  name : String
  description : String := ""
  parameters : Json
deriving Inhabited

/-- Recursion core of `dedupeToolDefsByName` with the `seen` name set
made explicit. -/
def dedupeToolDefsGo (seen : List String) : List ToolDef → List ToolDef
  | [] => []
  | d :: rest =>
      let name := normalizeString d.name
      if name = "" ∨ name ∈ seen then dedupeToolDefsGo seen rest
      else d :: dedupeToolDefsGo (name :: seen) rest

/-- `dedupeToolDefsByName` (core/self-test/tool-defs): keep the first
entry for each non-empty normalized name, preserving order.  (The JS
also drops non-object entries, which the typed `ToolDef` list cannot
contain.) -/
def dedupeToolDefsByName (defs : List ToolDef) : List ToolDef :=
  dedupeToolDefsGo [] defs

/-- Modelled from the spec: `convertOpenAiResponsesTools`
(core/augment-chat, not under src/) — converts a ToolDef list to the
OpenAI-responses dialect, de-duplicating by first occurrence (spec §8:
first-occurrence-wins "in every consumer (schema probe, round-trip
probe, conversion)") and rewriting every parameters schema to strict
mode (spec §4.2). -/
def convertOpenAiResponsesTools (defs : List ToolDef) : List ConvertedResponsesTool :=
  (dedupeToolDefsByName defs).map fun d =>
    { name := normalizeString d.name
      description := d.description
      parameters := coerceOpenAiStrictJsonSchema (resolveToolSchema d) }

/-- Result record of `validateConvertedToolsForProvider`
(part_001:588-605). -/
structure ConvertedToolsValidation where
  ok : Bool
  issues : List String
deriving Repr, DecidableEq, Inhabited

/-- `validateConvertedToolsForProvider(providerType, convertedTools)`
(part_001:588-605): only the `openai_responses` dialect is checked; for
each tool the first strict-mode issue (if any) is collected, stopping
once 30 issues accumulated; `ok` iff no issues. -/
def validateConvertedToolsForProvider (providerType : String)
    (tools : List ConvertedResponsesTool) : ConvertedToolsValidation :=
  if normalizeString providerType ≠ "openai_responses" then { ok := true, issues := [] }
  else
    let issues := collect tools []
    { ok := issues.isEmpty, issues := issues }
where
  /-- the `for (const tool of tools)` loop with its `issues.length >= 30`
  break -/
  collect : List ConvertedResponsesTool → List String → List String
    | [], acc => acc
    | tool :: rest, acc =>
        if acc.length ≥ 30 then acc
        else
          let toolIssues := validateOpenAiStrictJsonSchema tool.parameters "" 0
          match toolIssues with
          | [] => collect rest acc
          | i :: _ =>
              let name := if normalizeString tool.name = "" then "(unknown tool)"
                          else normalizeString tool.name
              collect rest (acc ++ [name ++ ": " ++ i])

/-! ### Strict-mode coercion satisfies the strict-mode validator (C1) -/

theorem coerceStrictList_eq_map (xs : List Json) :
    coerceStrictList xs = xs.map coerceOpenAiStrictJsonSchema := by
  induction xs with
  | nil => simp [coerceStrictList]
  | cons x rest ih => simp [coerceStrictList, ih]

theorem coerceStrictFields_eq_map (fs : List (String × Json)) :
    coerceStrictFields fs = fs.map fun p => (p.1, coerceStrictFieldValue p.1 p.2) := by
  induction fs with
  | nil => simp [coerceStrictFields]
  | cons p rest ih => cases p; simp [coerceStrictFields, ih]

theorem coerceStrictPairs_eq_map (ps : List (String × Json)) :
    coerceStrictPairs ps = ps.map fun p => (p.1, coerceOpenAiStrictJsonSchema p.2) := by
  induction ps with
  | nil => simp [coerceStrictPairs]
  | cons p rest ih =>
      cases p with
      | mk k v => simp [coerceStrictPairs, ih]

theorem getField_map (fs : List (String × Json)) (g : String → Json → Json) (k : String) :
    getField (fs.map fun p => (p.1, g p.1 p.2)) k = (getField fs k).map (g k) := by
  induction fs with
  | nil => rfl
  | cons p rest ih =>
      cases p with
      | mk k' v =>
          by_cases h : k' = k
          · subst h; simp [getField]
          · simp [getField, h, ih]

theorem getField_setFieldList_self (fs : List (String × Json)) (k : String) (v : Json) :
    getField (Json.setFieldList fs k v) k = some v := by
  induction fs with
  | nil => simp [Json.setFieldList, getField]
  | cons p rest ih =>
      cases p with
      | mk k' v' =>
          by_cases h : k' = k
          · subst h; simp [Json.setFieldList, getField]
          · simp [Json.setFieldList, getField, h, ih]

theorem getField_setFieldList_ne (fs : List (String × Json)) (k k' : String) (v : Json)
    (h : k' ≠ k) : getField (Json.setFieldList fs k v) k' = getField fs k' := by
  have h' : k ≠ k' := Ne.symm h
  induction fs with
  | nil => simp [Json.setFieldList, getField, h']
  | cons p rest ih =>
      cases p with
      | mk k0 v0 =>
          by_cases h0 : k0 = k
          · subst h0
            simp [Json.setFieldList, getField, h']
          · simp only [Json.setFieldList, if_neg h0, getField]
            by_cases h1 : k0 = k'
            · simp [h1]
            · simp [h1, ih]

theorem getField_setStrict_other (fs : List (String × Json)) (k : String)
    (h1 : k ≠ "required") (h2 : k ≠ "additionalProperties") :
    getField (setStrictFields fs) k = getField fs k := by
  rw [setStrictFields, getField_setFieldList_ne _ _ _ _ h2, getField_setFieldList_ne _ _ _ _ h1]

theorem hasObjectTypeF_setStrict (fs : List (String × Json)) :
    hasObjectTypeF (setStrictFields fs) = hasObjectTypeF fs := by
  rw [hasObjectTypeF, hasObjectTypeF,
    getField_setStrict_other fs "type" (by decide) (by decide)]

theorem propsOfF_setStrict (fs : List (String × Json)) :
    propsOfF (setStrictFields fs) = propsOfF fs := by
  rw [propsOfF, propsOfF, getField_setStrict_other fs "properties" (by decide) (by decide)]

theorem getField_setStrict_required (fs : List (String × Json)) :
    getField (setStrictFields fs) "required" =
      some (Json.arr ((propKeysF fs).map Json.str)) := by
  rw [setStrictFields, getField_setFieldList_ne _ _ _ _ (by decide),
    getField_setFieldList_self]

theorem getField_setStrict_addProps (fs : List (String × Json)) :
    getField (setStrictFields fs) "additionalProperties" = some (Json.bool false) := by
  rw [setStrictFields, getField_setFieldList_self]

theorem getField_coerceStrictFields (fs : List (String × Json)) (k : String) :
    getField (coerceStrictFields fs) k = (getField fs k).map (coerceStrictFieldValue k) := by
  rw [coerceStrictFields_eq_map]; exact getField_map fs coerceStrictFieldValue k

theorem coerceFV_schemaPos (k : String) (v : Json)
    (h : k = "items" ∨ k = "prefixItems" ∨ k = "not" ∨ k = "if" ∨ k = "then" ∨ k = "else" ∨
      k = "anyOf" ∨ k = "oneOf" ∨ k = "allOf") :
    coerceStrictFieldValue k v = coerceOpenAiStrictJsonSchema v := by
  cases v <;> simp only [coerceStrictFieldValue] <;> rw [if_pos h]

theorem coerceFV_mapPos (k : String) (v : Json)
    (hn : ¬(k = "items" ∨ k = "prefixItems" ∨ k = "not" ∨ k = "if" ∨ k = "then" ∨ k = "else" ∨
      k = "anyOf" ∨ k = "oneOf" ∨ k = "allOf"))
    (hk : k = "properties" ∨ k = "$defs" ∨ k = "definitions") :
    coerceStrictFieldValue k v =
      match v with
      | Json.obj ps => Json.obj (coerceStrictPairs ps)
      | _ => v := by
  cases v <;> simp only [coerceStrictFieldValue] <;> rw [if_neg hn, if_pos hk]

theorem validate_null_guard_nil (fuel : Nat) (q : String) (w : Json)
    (hw : validateOpenAiStrictGo fuel w q = []) :
    (match some w with
      | some Json.null => ([] : List String)
      | some v => validateOpenAiStrictGo fuel v q
      | none => []) = [] := by
  cases w
  case null => rfl
  all_goals exact hw

theorem validate_arr_guard_nil (fuel : Nat) (q : String) (w : Json)
    (hw : validateOpenAiStrictGo fuel w q = []) :
    (match some w with
      | some (Json.arr xs) => validateOpenAiStrictGo fuel (Json.arr xs) q
      | _ => []) = [] := by
  cases w
  case arr xs => exact hw
  all_goals rfl

theorem flatten_validate_coercePairs (fuel : Nat)
    (ih : ∀ (s : Json) (q : String), validateOpenAiStrictGo fuel (coerceOpenAiStrictJsonSchema s) q = [])
    (ps : List (String × Json)) (g : String × Json → String) :
    ((coerceStrictPairs ps).map fun p => validateOpenAiStrictGo fuel p.2 (g p)).flatten = [] := by
  rw [coerceStrictPairs_eq_map, List.flatten_eq_nil_iff]
  intro l hl
  rw [List.mem_map] at hl
  obtain ⟨p, hp, rfl⟩ := hl
  rw [List.mem_map] at hp
  obtain ⟨q, _, rfl⟩ := hp
  exact ih q.2 _

theorem validate_field_chunk (fuel : Nat)
    (ih : ∀ (s : Json) (q : String), validateOpenAiStrictGo fuel (coerceOpenAiStrictJsonSchema s) q = [])
    (fields F' : List (String × Json)) (path : String)
    (hother : ∀ k, k ≠ "required" → k ≠ "additionalProperties" →
      getField F' k = (getField fields k).map (coerceStrictFieldValue k))
    (name : String) (h1 : name ≠ "required") (h2 : name ≠ "additionalProperties")
    (hpos : name = "items" ∨ name = "prefixItems" ∨ name = "not" ∨ name = "if" ∨
      name = "then" ∨ name = "else" ∨ name = "anyOf" ∨ name = "oneOf" ∨ name = "allOf") :
    (match getField F' name with
      | some Json.null => ([] : List String)
      | some v => validateOpenAiStrictGo fuel v (childPath path name)
      | none => []) = [] := by
  have hP := hother name h1 h2
  cases ho : getField fields name with
  | none => rw [hP, ho]; rfl
  | some v =>
      have hv : getField F' name = some (coerceOpenAiStrictJsonSchema v) := by
        rw [hP, ho]
        have h := coerceFV_schemaPos name v hpos
        simp [h]
      rw [hv]
      exact validate_null_guard_nil fuel _ _ (ih v _)

theorem validate_arrField_chunk (fuel : Nat)
    (ih : ∀ (s : Json) (q : String), validateOpenAiStrictGo fuel (coerceOpenAiStrictJsonSchema s) q = [])
    (fields F' : List (String × Json)) (path : String)
    (hother : ∀ k, k ≠ "required" → k ≠ "additionalProperties" →
      getField F' k = (getField fields k).map (coerceStrictFieldValue k))
    (name : String) (h1 : name ≠ "required") (h2 : name ≠ "additionalProperties")
    (hpos : name = "items" ∨ name = "prefixItems" ∨ name = "not" ∨ name = "if" ∨
      name = "then" ∨ name = "else" ∨ name = "anyOf" ∨ name = "oneOf" ∨ name = "allOf") :
    (match getField F' name with
      | some (Json.arr xs) => validateOpenAiStrictGo fuel (Json.arr xs) (childPath path name)
      | _ => ([] : List String)) = [] := by
  have hP := hother name h1 h2
  cases ho : getField fields name with
  | none => rw [hP, ho]; rfl
  | some v =>
      have hv : getField F' name = some (coerceOpenAiStrictJsonSchema v) := by
        rw [hP, ho]
        have h := coerceFV_schemaPos name v hpos
        simp [h]
      rw [hv]
      exact validate_arr_guard_nil fuel _ _ (ih v _)

theorem validate_defs_chunk (fuel : Nat)
    (ih : ∀ (s : Json) (q : String), validateOpenAiStrictGo fuel (coerceOpenAiStrictJsonSchema s) q = [])
    (fields F' : List (String × Json)) (path : String)
    (hother : ∀ k, k ≠ "required" → k ≠ "additionalProperties" →
      getField F' k = (getField fields k).map (coerceStrictFieldValue k))
    (name : String) (h1 : name ≠ "required") (h2 : name ≠ "additionalProperties")
    (hn : ¬(name = "items" ∨ name = "prefixItems" ∨ name = "not" ∨ name = "if" ∨
      name = "then" ∨ name = "else" ∨ name = "anyOf" ∨ name = "oneOf" ∨ name = "allOf"))
    (hk : name = "properties" ∨ name = "$defs" ∨ name = "definitions") :
    (match getField F' name with
      | some (Json.obj ps) =>
          (ps.map fun p =>
            validateOpenAiStrictGo fuel p.2 (childPath path (name ++ "." ++ p.1))).flatten
      | _ => ([] : List String)) = [] := by
  have hP := hother name h1 h2
  cases ho : getField fields name with
  | none => rw [hP, ho]; rfl
  | some v =>
      have h := coerceFV_mapPos name v hn hk
      cases v with
      | obj ps =>
          have hv : getField F' name = some (Json.obj (coerceStrictPairs ps)) := by
            rw [hP, ho]; simp [h]
          rw [hv]
          show ((coerceStrictPairs ps).map fun p =>
            validateOpenAiStrictGo fuel p.2 (childPath path (name ++ "." ++ p.1))).flatten = []
          exact flatten_validate_coercePairs fuel ih ps _
      | null =>
          have hv : getField F' name = some Json.null := by rw [hP, ho]; simp [h]
          rw [hv]
      | bool b =>
          have hv : getField F' name = some (Json.bool b) := by rw [hP, ho]; simp [h]
          rw [hv]
      | num n =>
          have hv : getField F' name = some (Json.num n) := by rw [hP, ho]; simp [h]
          rw [hv]
      | str s =>
          have hv : getField F' name = some (Json.str s) := by rw [hP, ho]; simp [h]
          rw [hv]
      | arr xs =>
          have hv : getField F' name = some (Json.arr xs) := by rw [hP, ho]; simp [h]
          rw [hv]

theorem validate_obj_body (fuel : Nat)
    (ih : ∀ (s : Json) (q : String), validateOpenAiStrictGo fuel (coerceOpenAiStrictJsonSchema s) q = [])
    (fields F' : List (String × Json)) (path : String)
    (hother : ∀ k, k ≠ "required" → k ≠ "additionalProperties" →
      getField F' k = (getField fields k).map (coerceStrictFieldValue k))
    (hstrict : (hasObjectTypeF F' || (propsOfF F').isSome) = false ∨
      (getField F' "additionalProperties" = some (Json.bool false) ∧
        getField F' "required" = some (Json.arr ((propKeysF F').map Json.str)))) :
    validateOpenAiStrictGo (fuel + 1) (Json.obj F') path = [] := by
  simp only [validateOpenAiStrictGo, List.append_eq_nil]
  refine ⟨⟨⟨⟨⟨⟨⟨⟨⟨⟨⟨⟨?_, ?_⟩, ?_⟩, ?_⟩, ?_⟩, ?_⟩, ?_⟩, ?_⟩, ?_⟩, ?_⟩, ?_⟩, ?_⟩, ?_⟩
  -- strict-mode checks on this node
  · by_cases hcond : (hasObjectTypeF F' || (propsOfF F').isSome) = true
    case neg => rw [if_neg hcond]
    case pos =>
        rw [if_pos hcond]
        rcases hstrict with hf | ⟨hap, hreq⟩
        · exact absurd hcond (by simp [hf])
        · rw [hap, hreq, List.append_eq_nil]
          constructor
          · rfl
          · cases hp : propsOfF F' with
            | none => rfl
            | some ps =>
                have hkeys : propKeysF F' = ps.map Prod.fst := by rw [propKeysF, hp]
                show List.filterMap (fun k =>
                    if (((propKeysF F').map Json.str).any fun x => jsonIsStr x k) = true then none
                    else some ((if path = "" then "<root>" else path) ++
                      ": required missing \x27" ++ k ++ "\x27"))
                  (ps.map Prod.fst) = []
                rw [List.filterMap_eq_nil_iff]
                intro k hk
                have hany : (((propKeysF F').map Json.str).any fun x => jsonIsStr x k) = true := by
                  rw [List.any_eq_true]
                  exact ⟨Json.str k, by rw [hkeys]; exact List.mem_map_of_mem _ hk,
                    by simp [jsonIsStr]⟩
                rw [if_pos hany]
  -- recursion into properties members
  · have hP := hother "properties" (by decide) (by decide)
    cases ho : getField fields "properties" with
    | none =>
        have hnone : propsOfF F' = none := by rw [propsOfF, hP, ho]; rfl
        rw [hnone]
    | some v =>
        have hv : getField F' "properties" = some (coerceStrictFieldValue "properties" v) := by
          rw [hP, ho]; rfl
        cases v with
        | obj ps =>
            have hs : propsOfF F' = some (coerceStrictPairs ps) := by
              rw [propsOfF, hv, coerceFV_mapPos _ _ (by decide) (by decide)]
            rw [hs]
            show ((coerceStrictPairs ps).map fun p =>
              validateOpenAiStrictGo fuel p.2 (childPath path ("properties." ++ p.1))).flatten = []
            exact flatten_validate_coercePairs fuel ih ps _
        | null =>
            have hnone : propsOfF F' = none := by
              rw [propsOfF, hv, coerceFV_mapPos _ _ (by decide) (by decide)]
            rw [hnone]
        | bool b =>
            have hnone : propsOfF F' = none := by
              rw [propsOfF, hv, coerceFV_mapPos _ _ (by decide) (by decide)]
            rw [hnone]
        | num n =>
            have hnone : propsOfF F' = none := by
              rw [propsOfF, hv, coerceFV_mapPos _ _ (by decide) (by decide)]
            rw [hnone]
        | str s =>
            have hnone : propsOfF F' = none := by
              rw [propsOfF, hv, coerceFV_mapPos _ _ (by decide) (by decide)]
            rw [hnone]
        | arr xs =>
            have hnone : propsOfF F' = none := by
              rw [propsOfF, hv, coerceFV_mapPos _ _ (by decide) (by decide)]
            rw [hnone]
  -- items / prefixItems / not / if / then / else
  · exact validate_field_chunk fuel ih fields F' path hother "items" (by decide) (by decide) (by decide)
  · exact validate_field_chunk fuel ih fields F' path hother "prefixItems" (by decide) (by decide) (by decide)
  · exact validate_field_chunk fuel ih fields F' path hother "not" (by decide) (by decide) (by decide)
  · exact validate_field_chunk fuel ih fields F' path hother "if" (by decide) (by decide) (by decide)
  · exact validate_field_chunk fuel ih fields F' path hother "then" (by decide) (by decide) (by decide)
  · exact validate_field_chunk fuel ih fields F' path hother "else" (by decide) (by decide) (by decide)
  -- anyOf / oneOf / allOf
  · exact validate_arrField_chunk fuel ih fields F' path hother "anyOf" (by decide) (by decide) (by decide)
  · exact validate_arrField_chunk fuel ih fields F' path hother "oneOf" (by decide) (by decide) (by decide)
  · exact validate_arrField_chunk fuel ih fields F' path hother "allOf" (by decide) (by decide) (by decide)
  -- $defs / definitions
  · exact validate_defs_chunk fuel ih fields F' path hother "$defs" (by decide) (by decide) (by decide) (by decide)
  · exact validate_defs_chunk fuel ih fields F' path hother "definitions" (by decide) (by decide) (by decide) (by decide)

theorem propKeysF_setStrict (fs : List (String × Json)) :
    propKeysF (setStrictFields fs) = propKeysF fs := by
  rw [propKeysF, propKeysF, propsOfF_setStrict]

theorem validate_obj_case (fuel : Nat)
    (ih : ∀ (s : Json) (q : String), validateOpenAiStrictGo fuel (coerceOpenAiStrictJsonSchema s) q = [])
    (fields : List (String × Json)) (path : String) :
    validateOpenAiStrictGo (fuel + 1) (coerceOpenAiStrictJsonSchema (Json.obj fields)) path = [] := by
  cases hflag : hasObjectTypeF (coerceStrictFields fields) ||
      (propsOfF (coerceStrictFields fields)).isSome with
  | false =>
      have hc : coerceOpenAiStrictJsonSchema (Json.obj fields) =
          Json.obj (coerceStrictFields fields) := by
        simp [coerceOpenAiStrictJsonSchema, hflag]
      rw [hc]
      exact validate_obj_body fuel ih fields _ path
        (fun k _ _ => getField_coerceStrictFields fields k) (Or.inl hflag)
  | true =>
      have hc : coerceOpenAiStrictJsonSchema (Json.obj fields) =
          Json.obj (setStrictFields (coerceStrictFields fields)) := by
        simp [coerceOpenAiStrictJsonSchema, hflag]
      rw [hc]
      refine validate_obj_body fuel ih fields _ path
        (fun k h1 h2 => ?_) (Or.inr ⟨getField_setStrict_addProps _, ?_⟩)
      · rw [getField_setStrict_other _ k h1 h2, getField_coerceStrictFields]
      · rw [getField_setStrict_required, propKeysF_setStrict]

/-- The coercion's output never produces a strict-mode issue at any
depth: key lemma behind C1. -/
theorem validateGo_coerce_eq_nil :
    ∀ (fuel : Nat) (s : Json) (path : String),
      validateOpenAiStrictGo fuel (coerceOpenAiStrictJsonSchema s) path = [] := by
  intro fuel
  induction fuel with
  | zero => intro s path; rfl
  | succ fuel ih =>
    intro s path
    cases s with
    | null => simp [coerceOpenAiStrictJsonSchema, validateOpenAiStrictGo]
    | bool b => simp [coerceOpenAiStrictJsonSchema, validateOpenAiStrictGo]
    | num n => simp [coerceOpenAiStrictJsonSchema, validateOpenAiStrictGo]
    | str s' => simp [coerceOpenAiStrictJsonSchema, validateOpenAiStrictGo]
    | arr xs =>
        have hc : coerceOpenAiStrictJsonSchema (Json.arr xs) =
            Json.arr (xs.map coerceOpenAiStrictJsonSchema) := by
          simp [coerceOpenAiStrictJsonSchema, coerceStrictList_eq_map]
        rw [hc]
        simp only [validateOpenAiStrictGo]
        rw [List.flatten_eq_nil_iff]
        intro l hl
        rw [List.mem_map] at hl
        obtain ⟨p, hp, rfl⟩ := hl
        have hx := List.snd_mem_of_mem_enum hp
        rw [List.mem_map] at hx
        obtain ⟨x, _, hpx⟩ := hx
        rw [← hpx]
        exact ih x _
    | obj fields => exact validate_obj_case fuel ih fields path

theorem collect_clean_tools (tools : List ConvertedResponsesTool)
    (h : ∀ t ∈ tools, validateOpenAiStrictJsonSchema t.parameters "" 0 = []) :
    ∀ acc, validateConvertedToolsForProvider.collect tools acc = acc := by
  induction tools with
  | nil => intro acc; simp [validateConvertedToolsForProvider.collect]
  | cons t rest ih =>
      intro acc
      have ht := h t (by simp)
      simp only [validateConvertedToolsForProvider.collect, ht]
      by_cases hacc : acc.length ≥ 30
      · rw [if_pos hacc]
      · rw [if_neg hacc]
        exact ih (fun u hu => h u (by simp [hu])) acc

/-- C1: for every tool-definition list converted to the OpenAI-responses
dialect, every object-typed or has-properties (sub)schema of every
converted tool's parameters satisfies strict mode, i.e.
`validateOpenAiStrictJsonSchema` reports zero issues on every converted
parameters schema, and the self-test's defensive validator
(`validateConvertedToolsForProvider`) accepts the conversion output. -/
theorem responses_conversion_is_strict (defs : List ToolDef) :
    (validateConvertedToolsForProvider "openai_responses"
        (convertOpenAiResponsesTools defs)).ok = true ∧
    ((convertOpenAiResponsesTools defs).all fun t =>
        (validateOpenAiStrictJsonSchema t.parameters "" 0).isEmpty) = true := by
  have hall : ∀ t ∈ convertOpenAiResponsesTools defs,
      validateOpenAiStrictJsonSchema t.parameters "" 0 = [] := by
    intro t ht
    rw [convertOpenAiResponsesTools, List.mem_map] at ht
    obtain ⟨d, _, rfl⟩ := ht
    exact validateGo_coerce_eq_nil 51 (resolveToolSchema d) ""
  constructor
  · have hne : ¬(normalizeString "openai_responses" ≠ "openai_responses") := by
      simp only [ne_eq, Decidable.not_not]
      decide
    simp only [validateConvertedToolsForProvider, if_neg hne,
      collect_clean_tools _ hall []]
    rfl
  · rw [List.all_eq_true]
    intro t ht
    rw [hall t ht]
    rfl

/-! ### sampleJsonFromSchema (core/self-test/schema-sample.js) — C8 -/

/-- Decimal-integer parse of a JS numeric string (whitespace-trimmed,
optional sign); `none` models NaN.  Non-integral numeric strings are not
modelled (the embedded schemas never use them); they parse to `none`. -/
def jsStrToInt (s : String) : Option Int :=
  let t := jsTrim s
  if t = "" then some 0
  else
    let signAndDigits : Int × List Char :=
      match t.data with
      | '-' :: rest => (-1, rest)
      | '+' :: rest => (1, rest)
      | l => (1, l)
    if signAndDigits.2 ≠ [] ∧ signAndDigits.2.all Char.isDigit then
      some (signAndDigits.1 *
        (signAndDigits.2.foldl (fun n c => n * 10 + (c.toNat - 48)) 0 : Nat))
    else none

/-- `Number(x)` coercion to an integer where defined: `none` models NaN
(notably `Number(undefined)`).  A singleton array coerces through its
element as JS does (deeper array nesting, unused by the embedded
schemas, is approximated by `none`). -/
def jsNumberAtom : Json → Option Int
  | Json.null => some 0
  | Json.bool b => some (if b then 1 else 0)
  | Json.num n => some n
  | Json.str s => jsStrToInt s
  | Json.arr _ => none
  | Json.obj _ => none

/-- `Number` coercion of an optional (possibly `undefined`) value. -/
def jsNumberOf : Option Json → Option Int
  | none => none
  | some (Json.arr []) => some 0
  | some (Json.arr [Json.arr _]) => none
  | some (Json.arr [x]) => jsNumberAtom x
  | some (Json.arr _) => none
  | some v => jsNumberAtom v

/-- JS `a || b`. -/
def jsOr (a b : Json) : Json := if a.truthy then a else b

/-- Fuel-indexed core of `sampleJsonFromSchema`
(schema-sample.js:5-63).  The JS depth `d` early-returns `{}` at
`d > 8` and recurses at `d + 1`; here `fuel = 9 - d`.  The `schema`
argument is an `Option` so `undefined` inputs (e.g. `props && props[k]`
when a property is missing) are representable. -/
def sampleJsonGo (fuel : Nat) (schema : Option Json) : Json :=
  match fuel with
  | 0 => Json.obj []
  | fuel + 1 =>
    let fs : List (String × Json) :=
      match schema with
      | some (Json.obj fs) => fs
      | _ => []
    match getField fs "const" with
    | some c => c
    | none =>
    match getField fs "enum" with
    | some (Json.arr (e :: _)) => e
    | _ =>
    match getField fs "default" with
    | some dflt => dflt
    | none =>
    let pickFirst : String → Json := fun k =>
      match getField fs k with
      | some (Json.arr (x :: _)) => x
      | _ => Json.null
    let union := jsOr (pickFirst "oneOf") (jsOr (pickFirst "anyOf") (pickFirst "allOf"))
    if union.truthy then sampleJsonGo fuel (some union)
    else
      let types : List String :=
        match getField fs "type" with
        | some (Json.arr ts) =>
            (ts.map fun x => jsToLower (normalizeStringJson (some x))).filter (· ≠ "")
        | t? => [jsToLower (normalizeStringJson t?)].filter (· ≠ "")
      let has : String → Bool := fun t => types.contains t
      let props? : Option (List (String × Json)) :=
        match getField fs "properties" with
        | some (Json.obj ps) => some ps
        | _ => none
      if has "object" || props?.isSome then
        let required : List String :=
          match getField fs "required" with
          | some (Json.arr rs) =>
              (rs.map fun x => normalizeStringJson (some x)).filter (· ≠ "")
          | _ => []
        let keys : List String :=
          match props? with
          | some ps => ps.map Prod.fst
          | none => []
        let chosen : List String :=
          if required ≠ [] then
            required.filter fun k => if keys ≠ [] then keys.contains k else false
          else keys
        Json.obj ((chosen.take 60).foldl (fun acc k =>
          Json.setFieldList acc k
            (sampleJsonGo fuel (props?.bind fun ps => getField ps k))) [])
      else
        let items? := getField fs "items"
        if has "array" || (match items? with | some v => v.truthy | none => false) then
          let minItems : Int :=
            match jsNumberOf (getField fs "minItems") with
            | some m => if m > 0 then m else 0
            | none => 0
          let n : Nat := min 3 minItems.toNat
          Json.arr (List.replicate n (sampleJsonGo fuel items?))
        else if has "integer" then
          match jsNumberOf (getField fs "minimum") with
          | some m => Json.num m
          | none =>
              match jsNumberOf (getField fs "exclusiveMinimum") with
              | some m => Json.num (m + 1)
              | none => Json.num 1
        else if has "number" then
          match jsNumberOf (getField fs "minimum") with
          | some m => Json.num m
          | none =>
              match jsNumberOf (getField fs "exclusiveMinimum") with
              | some m => Json.num (m + 1)
              | none => Json.num 1
        else if has "boolean" then Json.bool true
        else if has "null" then Json.null
        else if has "string" then
          let minLength : Int :=
            match jsNumberOf (getField fs "minLength") with
            | some m => if m > 0 then m else 0
            | none => 0
          Json.str (String.mk (List.replicate (min 16 (max 1 minLength.toNat)) (Char.ofNat 120)))
        else Json.obj []
termination_by structural fuel

/-- `sampleJsonFromSchema(schema, depth)` (schema-sample.js:5). -/
def sampleJsonFromSchema (schema : Option Json) (depth : Nat) : Json :=
  sampleJsonGo (9 - depth) schema

/-- The schema of the C8 claim: `{type:"object", required:["a","b"],
properties:{a:{type:"string"}, b:{type:"integer"}}}`. -/
def sampleDemoSchema : Json :=
  Json.obj [("type", Json.str "object"),
    ("required", Json.arr [Json.str "a", Json.str "b"]),
    ("properties", Json.obj [
      ("a", Json.obj [("type", Json.str "string")]),
      ("b", Json.obj [("type", Json.str "integer")])])]

/-! ### dedupeToolDefsByName (core/self-test/tool-defs) — C9 -/

theorem dedupeGo_mem_not_seen (defs : List ToolDef) :
    ∀ (seen : List String) (d : ToolDef), d ∈ dedupeToolDefsGo seen defs →
      normalizeString d.name ∉ seen := by
  induction defs with
  | nil => intro seen d h; simp [dedupeToolDefsGo] at h
  | cons e rest ih =>
      intro seen d h
      simp only [dedupeToolDefsGo] at h
      by_cases hc : normalizeString e.name = "" ∨ normalizeString e.name ∈ seen
      · rw [if_pos hc] at h; exact ih seen d h
      · rw [if_neg hc] at h
        rcases List.mem_cons.mp h with rfl | h'
        · exact fun hs => hc (Or.inr hs)
        · intro hs
          exact ih _ d h' (List.mem_cons_of_mem _ hs)

theorem dedupeGo_names_nodup (defs : List ToolDef) :
    ∀ (seen : List String),
      ((dedupeToolDefsGo seen defs).map fun d => normalizeString d.name).Nodup := by
  induction defs with
  | nil => intro seen; simp [dedupeToolDefsGo]
  | cons e rest ih =>
      intro seen
      simp only [dedupeToolDefsGo]
      by_cases hc : normalizeString e.name = "" ∨ normalizeString e.name ∈ seen
      · rw [if_pos hc]; exact ih seen
      · rw [if_neg hc]
        rw [List.map_cons, List.nodup_cons]
        refine ⟨?_, ih _⟩
        intro hmem
        rw [List.mem_map] at hmem
        obtain ⟨d, hd, hEq⟩ := hmem
        exact dedupeGo_mem_not_seen rest _ d hd (by rw [hEq]; exact List.mem_cons_self _ _)

theorem dedupeGo_sublist (defs : List ToolDef) :
    ∀ (seen : List String), (dedupeToolDefsGo seen defs).Sublist defs := by
  induction defs with
  | nil => intro seen; simp [dedupeToolDefsGo]
  | cons e rest ih =>
      intro seen
      simp only [dedupeToolDefsGo]
      by_cases hc : normalizeString e.name = "" ∨ normalizeString e.name ∈ seen
      · rw [if_pos hc]; exact (ih seen).cons e
      · rw [if_neg hc]; exact (ih _).cons₂ e

theorem dedupeGo_filter_name (defs : List ToolDef) :
    ∀ (seen : List String) (n : String), n ≠ "" →
      (dedupeToolDefsGo seen defs).filter (fun d => normalizeString d.name = n) =
        if n ∈ seen then []
        else (defs.filter (fun d => normalizeString d.name = n)).take 1 := by
  induction defs with
  | nil => intro seen n _; simp [dedupeToolDefsGo]
  | cons e rest ih =>
      intro seen n hn
      simp only [dedupeToolDefsGo]
      by_cases hc : normalizeString e.name = "" ∨ normalizeString e.name ∈ seen
      · rw [if_pos hc]
        by_cases hen : normalizeString e.name = n
        · rcases hc with hc | hc
          · exact absurd (hen.symm.trans hc) hn
          · rw [hen] at hc
            rw [ih seen n hn, if_pos hc, if_pos hc]
        · rw [ih seen n hn, List.filter_cons_of_neg (by simpa using hen)]
      · rw [if_neg hc]
        push_neg at hc
        obtain ⟨hne, hnotseen⟩ := hc
        by_cases hen : normalizeString e.name = n
        · rw [List.filter_cons_of_pos (by simpa using hen),
            List.filter_cons_of_pos (by simpa using hen)]
          rw [ih (normalizeString e.name :: seen) n hn,
            if_pos (by rw [hen]; exact List.mem_cons_self _ _)]
          rw [if_neg (by rw [← hen]; exact hnotseen)]
          rfl
        · rw [List.filter_cons_of_neg (by simpa using hen),
            List.filter_cons_of_neg (by simpa using hen)]
          rw [ih (normalizeString e.name :: seen) n hn]
          have hmem : (n ∈ normalizeString e.name :: seen) ↔ (n ∈ seen) := by
            rw [List.mem_cons]
            constructor
            · rintro (h | h)
              · exact absurd h.symm hen
              · exact h
            · exact Or.inr
          simp only [hmem]

/-- C8: `sampleJsonFromSchema` on `{type:"object", required:["a","b"],
properties:{a:{type:"string"}, b:{type:"integer"}}}` returns the object
`{a:"x", b:1}`: field `a` is a string and field `b` is an integer that
is at least 0.  (The result is a finite `Json` tree, hence
JSON-serializable.) -/
theorem sampleJsonFromSchema_required_demo :
    sampleJsonFromSchema (some sampleDemoSchema) 0 =
      Json.obj [("a", Json.str "x"), ("b", Json.num 1)] ∧
    (∃ s : String,
      (sampleJsonFromSchema (some sampleDemoSchema) 0).lookup "a" = some (Json.str s)) ∧
    (∃ n : Int,
      (sampleJsonFromSchema (some sampleDemoSchema) 0).lookup "b" = some (Json.num n) ∧
      0 ≤ n) :=
  ⟨rfl, ⟨"x", rfl⟩, ⟨1, rfl, by norm_num⟩⟩

/-- Two tool definitions sharing the name "x". -/
def demoDupToolDefs : List ToolDef :=
  [{ name := "x", description := "first" }, { name := "x", description := "second" }]

/-- C9: `dedupeToolDefsByName` keeps only the first occurrence of each
name: the result is an order-preserving sublist with pairwise-distinct
normalized names, for each non-empty name exactly the first entry
carrying it survives, and a list with two entries named "x" collapses to
its first entry — also through the tool conversion, which consumes the
de-duplicated list. -/
theorem dedupeToolDefsByName_first_wins :
    (∀ defs : List ToolDef,
      (dedupeToolDefsByName defs).Sublist defs ∧
      ((dedupeToolDefsByName defs).map fun d => normalizeString d.name).Nodup ∧
      ∀ n, n ≠ "" →
        (dedupeToolDefsByName defs).filter (fun d => normalizeString d.name = n) =
          (defs.filter (fun d => normalizeString d.name = n)).take 1) ∧
    dedupeToolDefsByName demoDupToolDefs = [{ name := "x", description := "first" }] ∧
    (convertOpenAiResponsesTools demoDupToolDefs).length = 1 := by
  refine ⟨fun defs => ⟨dedupeGo_sublist defs [], dedupeGo_names_nodup defs [],
    fun n hn => ?_⟩, rfl, ?_⟩
  · rw [dedupeToolDefsByName, dedupeGo_filter_name defs [] n hn]
    simp
  · rw [convertOpenAiResponsesTools, List.length_map]
    rfl

theorem dedupeToolDefsByName_first_wins_witness :
    ("x" : String) ≠ "" ∧
    (dedupeToolDefsByName demoDupToolDefs).filter
        (fun d => normalizeString d.name = "x") =
      (demoDupToolDefs.filter (fun d => normalizeString d.name = "x")).take 1 :=
  ⟨by decide, (dedupeToolDefsByName_first_wins.1 demoDupToolDefs).2.2 "x" (by decide)⟩

/-! ### collectChatStream (part_001:249-262) — C7 -/

/-- One canonical response chunk as consumed by `collectChatStream`:
`text` is present when `typeof ch.text === "string"`, `nodes` when
`Array.isArray(ch.nodes)`, and `stop_reason?` when
`"stop_reason" in ch` (its value may be `null`). -/
structure ChatChunk where
  text : Option String := none
  nodes : Option (List Json) := none
  stop_reason? : Option Json := none
deriving Inhabited

/-- The record built by `collectChatStream`. -/
structure CollectedStream where
  chunks : List ChatChunk
  nodes : List Json
  text : String
  stop_reason : Json
deriving Inhabited

/-- The `for await` loop of `collectChatStream` with its
`chunks.length >= maxChunks` break. -/
def collectChatGo (maxChunks : Nat) : List ChatChunk → CollectedStream → CollectedStream
  | [], acc => acc
  | ch :: rest, acc =>
      if acc.chunks.length ≥ maxChunks then acc
      else
        let acc1 := { acc with chunks := acc.chunks ++ [ch] }
        let acc2 :=
          match ch.text with
          | some s => if s ≠ "" then { acc1 with text := acc1.text ++ s } else acc1
          | none => acc1
        let acc3 :=
          match ch.nodes with
          | some ns => { acc2 with nodes := acc2.nodes ++ ns }
          | none => acc2
        let acc4 :=
          match ch.stop_reason? with
          | some v => { acc3 with stop_reason := v }
          | none => acc3
        collectChatGo maxChunks rest acc4

/-- `collectChatStream(gen, {maxChunks})` (part_001:249): `stop_reason`
starts as JS `null`. -/
def collectChatStreamWith (maxChunks : Nat) (gen : List ChatChunk) : CollectedStream :=
  collectChatGo maxChunks gen { chunks := [], nodes := [], text := "", stop_reason := Json.null }

/-- `collectChatStream(gen)` with the default `maxChunks = 500`, as every
caller in the source invokes it. -/
def collectChatStream (gen : List ChatChunk) : CollectedStream :=
  collectChatStreamWith 500 gen

/-- Spec-side reconstruction: the concatenation of all text deltas in
yield order ("concatenating text deltas in yield order reproduces the
full response text", spec 8). -/
def textConcat : List ChatChunk → String
  | [] => ""
  | ch :: rest => (match ch.text with | some s => s | none => "") ++ textConcat rest

/-- Spec-side reconstruction: the flat concatenation of all node lists. -/
def nodesConcat : List ChatChunk → List Json
  | [] => []
  | ch :: rest => (match ch.nodes with | some ns => ns | none => []) ++ nodesConcat rest

/-- The last present `stop_reason` value of a chunk list. -/
def lastStop : List ChatChunk → Option Json
  | [] => none
  | ch :: rest =>
      match lastStop rest with
      | some v => some v
      | none => ch.stop_reason?

theorem collectChatGo_no_cap (maxChunks : Nat) :
    ∀ (chunks : List ChatChunk) (acc : CollectedStream),
      acc.chunks.length + chunks.length ≤ maxChunks →
      collectChatGo maxChunks chunks acc =
        { chunks := acc.chunks ++ chunks,
          nodes := acc.nodes ++ nodesConcat chunks,
          text := acc.text ++ textConcat chunks,
          stop_reason :=
            match lastStop chunks with
            | some v => v
            | none => acc.stop_reason } := by
  intro chunks
  induction chunks with
  | nil =>
      intro acc _
      simp [collectChatGo, textConcat, nodesConcat, lastStop]
  | cons ch rest ih =>
      intro acc hlen
      simp only [List.length_cons] at hlen
      have hlt : ¬(acc.chunks.length ≥ maxChunks) := by omega
      obtain ⟨t?, ns?, sr?⟩ := ch
      rcases t? with _ | s <;> rcases ns? with _ | ns <;> rcases sr? with _ | v <;>
        simp only [collectChatGo, if_neg hlt] <;>
        rw [ih _ (by first | (simp; omega) | (split <;> (simp; omega)))] <;>
        simp only [textConcat, nodesConcat, lastStop] <;>
        first
        | (cases lastStop rest <;> simp <;> done)
        | (split <;> cases lastStop rest <;> simp_all [String.append_assoc])

theorem lastStop_none_of_filterMap_nil :
    ∀ (chunks : List ChatChunk),
      chunks.filterMap (fun ch => ch.stop_reason?) = [] → lastStop chunks = none := by
  intro chunks
  induction chunks with
  | nil => intro _; rfl
  | cons ch rest ih =>
      intro h
      rw [List.filterMap_cons] at h
      cases hsr : ch.stop_reason? with
      | none =>
          rw [hsr] at h
          rw [lastStop, ih h, hsr]
      | some v => rw [hsr] at h; cases h

theorem lastStop_of_filterMap_singleton :
    ∀ (chunks : List ChatChunk) (v : Json),
      chunks.filterMap (fun ch => ch.stop_reason?) = [v] → lastStop chunks = some v := by
  intro chunks
  induction chunks with
  | nil => intro v h; cases h
  | cons ch rest ih =>
      intro v h
      rw [List.filterMap_cons] at h
      cases hsr : ch.stop_reason? with
      | none =>
          rw [hsr] at h
          rw [lastStop, ih v h]
      | some u =>
          rw [hsr] at h
          rw [List.cons_eq_cons] at h
          obtain ⟨rfl, hrest⟩ := h
          rw [lastStop, lastStop_none_of_filterMap_nil rest hrest, hsr]

/-- The 501-chunk stream that overflows the collector's cap. -/
def longChunkStream : List ChatChunk :=
  List.replicate 500 ({ text := some "a" } : ChatChunk) ++ [{ text := some "b" }]

set_option maxRecDepth 100000 in
/-- C7 counterexample: on a finished canonical sequence of 501 chunks,
the collector's default `maxChunks = 500` cap stops before the last
chunk, so the returned text is not the concatenation of all text deltas
in yield order — the claim as stated fails. -/
theorem collectChatStream_cap_counterexample :
    ¬((collectChatStream longChunkStream).text = textConcat longChunkStream) := by
  decide

/-- C7 (amended): for every finished canonical chunk sequence of at most
500 chunks (the collector's default cap), the collection helper returns
text equal to the concatenation of all text deltas in yield order, the
flat concatenation of all node lists, the chunk list itself, and — when
exactly one terminal stopReason is observed in the stream — that stop
reason. -/
theorem collectChatStream_reconstructs (chunks : List ChatChunk)
    (h : chunks.length ≤ 500) :
    (collectChatStream chunks).text = textConcat chunks ∧
    (collectChatStream chunks).nodes = nodesConcat chunks ∧
    (collectChatStream chunks).chunks = chunks ∧
    ∀ v : Json, chunks.filterMap (fun ch => ch.stop_reason?) = [v] →
      (collectChatStream chunks).stop_reason = v := by
  have hgo := collectChatGo_no_cap 500 chunks
      { chunks := [], nodes := [], text := "", stop_reason := Json.null } (by simpa using h)
  rw [collectChatStream, collectChatStreamWith, hgo]
  refine ⟨by simp, by simp, by simp, ?_⟩
  intro v hv
  simp only [lastStop_of_filterMap_singleton chunks v hv]

/-- A two-chunk finished stream with a single terminal stop reason. -/
def demoFinishedChunks : List ChatChunk :=
  [{ text := some "he" }, { text := some "llo", stop_reason? := some (Json.str "end_turn") }]

theorem collectChatStream_reconstructs_witness :
    demoFinishedChunks.length ≤ 500 ∧
    (collectChatStream demoFinishedChunks).text = textConcat demoFinishedChunks ∧
    (collectChatStream demoFinishedChunks).stop_reason = Json.str "end_turn" :=
  ⟨by decide,
   (collectChatStream_reconstructs demoFinishedChunks (by decide)).1,
   (collectChatStream_reconstructs demoFinishedChunks (by decide)).2.2.2 (Json.str "end_turn") rfl⟩

/-! ### Model discovery with versioned fallback (providers/models.js) — C5 -/

/-- The value an awaited `fetchWithRetry` resolves to, as observed by
`fetchModelsWithFallback`: HTTP ok flag, status, and the parsed JSON
body (`none` models a body that fails to parse — the JS
`.json().catch(() => null)`). -/
structure FetchResp where
  ok : Bool
  status : Int
  json : Option Json
deriving Inhabited

/-- JS `String.prototype.includes` over character lists. -/
def listContainsSub (sub : List Char) : List Char → Bool
  | [] => sub.isPrefixOf []
  | c :: rest => sub.isPrefixOf (c :: rest) || listContainsSub sub rest

/-- `s.includes(sub)`. -/
def jsIncludes (s sub : String) : Bool := listContainsSub sub.data s.data

/-- Modelled from the spec: `joinBaseUrl` (providers/http, not under
src/) — joins the base URL and a path with exactly one slash
(model-listing endpoint conventions, spec 6). -/
def joinBaseUrl (b path : String) : String :=
  String.mk ((b.data.reverse.dropWhile (fun c => c = '/')).reverse) ++ "/" ++ path

/-- `uniqKeepOrder` (models.js:27-37): normalize each entry, drop empty
ones, keep the first occurrence of each. -/
def uniqKeepOrderGo (seen : List String) : List String → List String
  | [] => []
  | x :: rest =>
      let s := normalizeString x
      if s = "" ∨ s ∈ seen then uniqKeepOrderGo seen rest
      else s :: uniqKeepOrderGo (s :: seen) rest

/-- `uniqKeepOrder` on a string list (the URL use site). -/
def uniqKeepOrder (xs : List String) : List String := uniqKeepOrderGo [] xs

/-- JS `a ?? b ?? c` over property reads: the first value that is
neither undefined nor null. -/
def jsCoalesce : List (Option Json) → Option Json
  | [] => none
  | none :: rest => jsCoalesce rest
  | some Json.null :: rest => jsCoalesce rest
  | some v :: _ => some v

/-- `uniqKeepOrder` applied to arbitrary JS values (the model-id use
site): `normalizeString(it)` stringifies each entry. -/
def uniqKeepOrderJsonGo (seen : List String) : List (Option Json) → List String
  | [] => []
  | x :: rest =>
      let s := normalizeStringJson x
      if s = "" ∨ s ∈ seen then uniqKeepOrderJsonGo seen rest
      else s :: uniqKeepOrderJsonGo (s :: seen) rest

/-- `parseModelIds(json)` (models.js:39-52): accepts `data[]` (objects
with id/name/model), `models[]` (strings or objects), or
`model_ids[]`/`modelIds[]` (raw values). -/
def parseModelIds (json : Option Json) : List String :=
  match json with
  | none => []
  | some j =>
      match j.lookup "data" with
      | some (Json.arr data) =>
          uniqKeepOrderJsonGo []
            (data.map fun m =>
              some ((jsCoalesce [m.lookup "id", m.lookup "name", m.lookup "model"]).getD
                (Json.str "")))
      | _ =>
      match j.lookup "models" with
      | some (Json.arr models) =>
          uniqKeepOrderJsonGo []
            (models.map fun m =>
              match m with
              | Json.str s => some (Json.str s)
              | _ => some ((jsCoalesce [m.lookup "id", m.lookup "name", m.lookup "model"]).getD
                  (Json.str "")))
      | _ =>
      match j.lookup "model_ids" with
      | some (Json.arr l) => uniqKeepOrderJsonGo [] (l.map some)
      | _ =>
      match j.lookup "modelIds" with
      | some (Json.arr l) => uniqKeepOrderJsonGo [] (l.map some)
      | _ => []

/-- How a `fetchModelsWithFallback` run ends: a model list, an upstream
HTTP error (`makeUpstreamHttpError`, carrying the status), a 200
response with no parseable model list, or exhaustion of the URL list
(the final throw, which reports `tried.length`). -/
inductive FetchModelsOutcome where
  | success (models : List String)
  | upstreamError (status : Int)
  | parseError
  | exhausted (triedCount : Nat)
deriving Repr, DecidableEq, Inhabited

/-- Run result together with the recorded `tried` URL list. -/
structure FetchModelsResult where
  outcome : FetchModelsOutcome
  tried : List String
deriving Repr, DecidableEq, Inhabited

/-- The URL loop of `fetchModelsWithFallback` (models.js:54-69):
advance past a URL only on HTTP 404. -/
def fetchModelsLoop (fetch : String → FetchResp) :
    List String → List String → FetchModelsResult
  | [], tried => { outcome := FetchModelsOutcome.exhausted tried.length, tried := tried }
  | url :: rest, tried =>
      let tried1 := tried ++ [url]
      let resp := fetch url
      if resp.ok = false then
        if resp.status = 404 then fetchModelsLoop fetch rest tried1
        else { outcome := FetchModelsOutcome.upstreamError resp.status, tried := tried1 }
      else
        let models := parseModelIds resp.json
        if models ≠ [] then { outcome := FetchModelsOutcome.success models, tried := tried1 }
        else { outcome := FetchModelsOutcome.parseError, tried := tried1 }

/-- `fetchModelsWithFallback({urls, ...})` (models.js:54). -/
def fetchModelsWithFallback (fetch : String → FetchResp) (urls : List String) :
    FetchModelsResult :=
  fetchModelsLoop fetch (uniqKeepOrder urls) []

/-- `fetchOpenAiCompatibleModels` (models.js:71-86): requires a base URL
and some authentication, then runs the fallback loop over
`[<base>/models]` plus `<base>/v1/models` when the base URL does not
already contain `/v1`.  (`requireString`/`normalizeRawToken` from
infra/util, not under src/, are modelled as trim-and-require.) -/
def fetchOpenAiCompatibleModels (fetch : String → FetchResp) (baseUrl apiKey : String)
    (extraHeaders : List (String × String)) : Except String FetchModelsResult :=
  let b := normalizeString baseUrl
  if b = "" then Except.error "OpenAI baseUrl"
  else
    let key := normalizeString apiKey
    if key = "" ∧ extraHeaders = [] then
      Except.error "OpenAI apiKey not configured"
    else
      let urls := [joinBaseUrl b "models"] ++
        (if jsIncludes b "/v1" then [] else [joinBaseUrl b "v1/models"])
      Except.ok (fetchModelsWithFallback fetch urls)

theorem fetchModelsLoop_single_tried (fetch : String → FetchResp) (u : String)
    (t : List String) : (fetchModelsLoop fetch [u] t).tried = t ++ [u] := by
  by_cases hok : (fetch u).ok = false
  · by_cases hst : (fetch u).status = 404
    · simp [fetchModelsLoop, hok, hst]
    · simp [fetchModelsLoop, hok, hst]
  · by_cases hm : parseModelIds (fetch u).json = []
    · simp [fetchModelsLoop, hok, hm]
    · simp [fetchModelsLoop, hok, hm]

/-- C5: model discovery tries the versioned fallback URL exactly when the
unversioned URL returns HTTP 404 (recording the attempted URLs), a
404-then-parseable-200 pair succeeds with the fallback's model list and
both URLs recorded, and the OpenAI-compatible discovery builds exactly
the unversioned URL plus the `v1`-prefixed fallback whenever the base
URL does not already contain `/v1`. -/
theorem fetchModels_versioned_fallback (fetch : String → FetchResp) (u1 u2 : String)
    (h1 : normalizeString u1 = u1) (h1n : u1 ≠ "")
    (h2 : normalizeString u2 = u2) (h2n : u2 ≠ "") (hne : u1 ≠ u2) :
    ((fetchModelsWithFallback fetch [u1, u2]).tried =
      if (fetch u1).ok = false ∧ (fetch u1).status = 404 then [u1, u2] else [u1]) ∧
    (∀ models : List String,
      (fetch u1).ok = false → (fetch u1).status = 404 →
      (fetch u2).ok = true → parseModelIds (fetch u2).json = models → models ≠ [] →
      fetchModelsWithFallback fetch [u1, u2] =
        { outcome := FetchModelsOutcome.success models, tried := [u1, u2] }) ∧
    (∀ baseUrl apiKey : String,
      normalizeString apiKey ≠ "" →
      normalizeString baseUrl ≠ "" →
      jsIncludes (normalizeString baseUrl) "/v1" = false →
      fetchOpenAiCompatibleModels fetch baseUrl apiKey [] =
        Except.ok (fetchModelsWithFallback fetch
          [joinBaseUrl (normalizeString baseUrl) "models",
           joinBaseUrl (normalizeString baseUrl) "v1/models"])) := by
  have huniq : uniqKeepOrder [u1, u2] = [u1, u2] := by
    simp only [uniqKeepOrder, uniqKeepOrderGo, h1, h2]
    rw [if_neg (by simp [h1n]), if_neg (by simp [h2n, Ne.symm hne])]
  refine ⟨?_, ?_, ?_⟩
  · by_cases h404 : (fetch u1).ok = false ∧ (fetch u1).status = 404
    · obtain ⟨hok, hst⟩ := h404
      rw [if_pos ⟨hok, hst⟩, fetchModelsWithFallback, huniq]
      by_cases hok2 : (fetch u2).ok = false
      · by_cases hst2 : (fetch u2).status = 404
        · simp [fetchModelsLoop, hok, hst, hok2, hst2]
        · simp [fetchModelsLoop, hok, hst, hok2, hst2]
      · by_cases hm2 : parseModelIds (fetch u2).json = []
        · simp [fetchModelsLoop, hok, hst, hok2, hm2]
        · simp [fetchModelsLoop, hok, hst, hok2, hm2]
    · rw [if_neg h404, fetchModelsWithFallback, huniq]
      by_cases hok : (fetch u1).ok = false
      · have hst : ¬(fetch u1).status = 404 := fun hs => h404 ⟨hok, hs⟩
        simp [fetchModelsLoop, hok, hst]
      · by_cases hm : parseModelIds (fetch u1).json = []
        · simp [fetchModelsLoop, hok, hm]
        · simp [fetchModelsLoop, hok, hm]
  · intro models hok hst hok2 hparse hne2
    rw [fetchModelsWithFallback, huniq]
    simp [fetchModelsLoop, hok, hst, hok2, hparse, hne2]
  · intro baseUrl apiKey hkey hbase hv1
    rw [fetchOpenAiCompatibleModels]
    rw [if_neg hbase]
    rw [if_neg (by rintro ⟨hk, _⟩; exact hkey hk)]
    rw [hv1]
    rfl

/-- Concrete fetch oracle: 404 on the unversioned URL, a parseable model
list on the versioned fallback. -/
def demoModelFetch : String → FetchResp := fun url =>
  if url = "https://x/models" then { ok := false, status := 404, json := none }
  else { ok := true, status := 200,
         json := some (Json.obj [("data", Json.arr [Json.obj [("id", Json.str "m1")]])]) }

theorem fetchModels_versioned_fallback_witness :
    fetchModelsWithFallback demoModelFetch ["https://x/models", "https://x/v1/models"] =
      { outcome := FetchModelsOutcome.success ["m1"],
        tried := ["https://x/models", "https://x/v1/models"] } :=
  (fetchModels_versioned_fallback demoModelFetch "https://x/models" "https://x/v1/models"
    (by decide) (by decide) (by decide) (by decide) (by decide)).2.1 ["m1"]
    (by decide) (by decide) (by decide) (by decide) (by decide)

/-! ### mergeModels (runtime/shim.js:1279-1294) — C10 -/

/-- Modelled from the spec: `makeModelInfo` (core/protocol, not under
src/) — the model-info record for a model name; its `name` field carries
the name (get-models shape, spec 6). -/
def makeModelInfo (name : String) : Json :=
  Json.obj [("name", Json.str name)]

/-- The `for (const name of byokModelNames)` append loop of
`mergeModels`: skip empty names and names already present, append
`makeModelInfo(name)` and remember the name otherwise. -/
def mergeAppendLoop : List String → List Json → List String → List Json × List String
  | [], models, seen => (models, seen)
  | name :: rest, models, seen =>
      if name = "" ∨ name ∈ seen then mergeAppendLoop rest models seen
      else mergeAppendLoop rest (models ++ [makeModelInfo name]) (name :: seen)

/-- `models[0]?.name || "unknown"` (non-string truthy `name` values,
which the upstream never produces, are approximated by the default). -/
def firstModelNameOr (models : List Json) (dflt : String) : String :=
  match models with
  | [] => dflt
  | m :: _ =>
      match m.lookup "name" with
      | some (Json.str s) => if s = "" then dflt else s
      | _ => dflt

/-- `Array.isArray(base.models) ? base.models.slice() : []`. -/
def upstreamModelsOf (fs : List (String × Json)) : List Json :=
  match getField fs "models" with
  | some (Json.arr ms) => ms
  | _ => []

/-- The upstream `name` set used for de-duplication
(`models.map(...).filter(Boolean)` into a `Set`). -/
def existingModelNames (models0 : List Json) : List String :=
  models0.filterMap fun m =>
    match m.lookup "name" with
    | some (Json.str s) => if s = "" then none else some s
    | _ => none

/-- `mergeModels(upstreamJson, byokModelNames, opts)`
(shim.js:1279-1294), parameterized by
`ensureModelRegistryFeatureFlags` (core/model-registry, not under src/;
the claim excludes `feature_flags` from its frame, so the flags function
is universally quantified).  `optsDefaultModel` is `opts?.defaultModel`
coerced to a string. -/
def mergeModels (ensureFlags : Json → List String → String → String → Json)
    (upstreamJson : Json) (byokModelNames : List String) (optsDefaultModel : String) : Json :=
  let base := match upstreamJson with | Json.obj fs => fs | _ => []
  let models0 := upstreamModelsOf base
  let step := mergeAppendLoop byokModelNames models0 (existingModelNames models0)
  let models := step.1
  let baseDefaultModel :=
    match getField base "default_model" with
    | some (Json.str s) => if s ≠ "" then s else firstModelNameOr models "unknown"
    | _ => firstModelNameOr models "unknown"
  let baseFlags :=
    match getField base "feature_flags" with
    | some (Json.obj fs2) => Json.obj fs2
    | _ => Json.obj []
  let preferred := normalizeString optsDefaultModel
  let defaultModel := if preferred ≠ "" then preferred else baseDefaultModel
  let flags := ensureFlags baseFlags byokModelNames defaultModel defaultModel
  Json.obj (Json.setFieldList (Json.setFieldList (Json.setFieldList base
    "default_model" (Json.str defaultModel)) "models" (Json.arr models)) "feature_flags" flags)

theorem lookup_obj_eq_getField (fs : List (String × Json)) (k : String) :
    Json.lookup (Json.obj fs) k = getField fs k := by
  show Json.lookup.go fs k = getField fs k
  induction fs with
  | nil => rfl
  | cons p rest ih =>
      cases p with
      | mk a b => by_cases h : a = k <;> simp [Json.lookup.go, getField, h, ih]

theorem mergeAppendLoop_spec :
    ∀ (names : List String) (models : List Json) (seen : List String),
      (∀ n ∈ names, n ≠ "") →
      ∃ extraNames : List String,
        (mergeAppendLoop names models seen).1 = models ++ extraNames.map makeModelInfo ∧
        extraNames.Nodup ∧
        (∀ n, n ∈ extraNames ↔ (n ∈ names ∧ n ∉ seen)) := by
  intro names
  induction names with
  | nil =>
      intro models seen _
      exact ⟨[], by simp [mergeAppendLoop], List.nodup_nil, by simp⟩
  | cons name rest ih =>
      intro models seen hne
      have hn : name ≠ "" := hne name (List.mem_cons_self _ _)
      by_cases hseen : name ∈ seen
      · obtain ⟨extras, h1, h2, h3⟩ :=
          ih models seen (fun n hn' => hne n (List.mem_cons_of_mem _ hn'))
        refine ⟨extras, by simp [mergeAppendLoop, hseen, h1], h2, ?_⟩
        intro n
        rw [h3]
        constructor
        · rintro ⟨hr, hs⟩; exact ⟨List.mem_cons_of_mem _ hr, hs⟩
        · rintro ⟨hc, hs⟩
          rcases List.mem_cons.mp hc with rfl | hr
          · exact absurd hseen hs
          · exact ⟨hr, hs⟩
      · obtain ⟨extras, h1, h2, h3⟩ :=
          ih (models ++ [makeModelInfo name]) (name :: seen)
            (fun n hn' => hne n (List.mem_cons_of_mem _ hn'))
        have hcond : ¬(name = "" ∨ name ∈ seen) := by
          rintro (h | h)
          · exact hn h
          · exact hseen h
        refine ⟨name :: extras, ?_, ?_, ?_⟩
        · simp only [mergeAppendLoop]
          rw [if_neg hcond, h1, List.map_cons, List.append_assoc]
          simp
        · rw [List.nodup_cons]
          refine ⟨fun hmem => ?_, h2⟩
          exact ((h3 name).mp hmem).2 (List.mem_cons_self _ _)
        · intro n
          rw [List.mem_cons, h3]
          constructor
          · rintro (rfl | ⟨hr, hs⟩)
            · exact ⟨List.mem_cons_self _ _, hseen⟩
            · exact ⟨List.mem_cons_of_mem _ hr,
                fun hm => hs (List.mem_cons_of_mem _ hm)⟩
          · rintro ⟨hc, hs⟩
            by_cases hnn : n = name
            · exact Or.inl hnn
            · rcases List.mem_cons.mp hc with rfl | hr
              · exact absurd rfl hnn
              · have hnotin : n ∉ name :: seen := by
                  intro hm
                  rcases List.mem_cons.mp hm with h | h
                  · exact hnn h
                  · exact hs h
                exact Or.inr ⟨hr, hnotin⟩

/-- C10: `mergeModels` leaves every upstream get-models field other than
`default_model`, `models`, and `feature_flags` unchanged, and its output
models list is the upstream models in their original order followed by
exactly those (non-empty) BYOK model names not already present by
upstream `name`, each appearing once — for any feature-flags
collaborator. -/
theorem mergeModels_frame_and_append
    (ensureFlags : Json → List String → String → String → Json)
    (fs : List (String × Json)) (byokNames : List String) (optDM : String)
    (hnames : ∀ n ∈ byokNames, n ≠ "") :
    (∀ k, k ≠ "default_model" → k ≠ "models" → k ≠ "feature_flags" →
      (mergeModels ensureFlags (Json.obj fs) byokNames optDM).lookup k =
        (Json.obj fs).lookup k) ∧
    (∃ extraNames : List String,
      (mergeModels ensureFlags (Json.obj fs) byokNames optDM).lookup "models" =
        some (Json.arr (upstreamModelsOf fs ++ extraNames.map makeModelInfo)) ∧
      extraNames.Nodup ∧
      (∀ n, n ∈ extraNames ↔
        (n ∈ byokNames ∧ n ∉ existingModelNames (upstreamModelsOf fs)))) := by
  constructor
  · intro k h1 h2 h3
    simp only [mergeModels]
    rw [lookup_obj_eq_getField, lookup_obj_eq_getField,
      getField_setFieldList_ne _ _ _ _ h3, getField_setFieldList_ne _ _ _ _ h2,
      getField_setFieldList_ne _ _ _ _ h1]
  · obtain ⟨extras, he1, he2, he3⟩ :=
      mergeAppendLoop_spec byokNames (upstreamModelsOf fs)
        (existingModelNames (upstreamModelsOf fs)) hnames
    refine ⟨extras, ?_, he2, he3⟩
    simp only [mergeModels]
    rw [lookup_obj_eq_getField,
      getField_setFieldList_ne _ _ _ _ (by decide),
      getField_setFieldList_self, he1]

theorem mergeModels_frame_and_append_witness :
    ((∀ n ∈ ["byok:p1:m1"], n ≠ "") ∧
      (mergeModels (fun b _ _ _ => b)
          (Json.obj [("other", Json.str "keep"),
            ("models", Json.arr [Json.obj [("name", Json.str "m0")]])])
          ["byok:p1:m1"] "").lookup "other" = some (Json.str "keep")) :=
  ⟨by decide,
   (mergeModels_frame_and_append (fun b _ _ _ => b)
      [("other", Json.str "keep"),
        ("models", Json.arr [Json.obj [("name", Json.str "m0")]])]
      ["byok:p1:m1"] "" (by decide)).1 "other" (by decide) (by decide) (by decide)⟩

/-! ### Routing guard (runtime/shim.js:472-500, 631-648) — C4 -/

/-- One configured provider (spec 3 ProviderConfig, the fields the
routing and self-test paths read). -/
structure Provider where
  id : String := ""
  type : String := ""
  baseUrl : String := ""
  apiKey : String := ""
  headers : List (String × String) := []
  defaultModel : String := ""
  models : List String := []
deriving Repr, DecidableEq, Inhabited

/-- A per-endpoint routing rule (spec 4.1). -/
structure EndpointRule where
  endpoint : String
  mode : String
  providerId : String := ""
deriving Repr, DecidableEq, Inhabited

/-- The configuration slice the routing decision reads. -/
structure ByokConfig where
  providers : List Provider := []
  rules : List EndpointRule := []
  telemetryDisabledEndpoints : List String := []
deriving Repr, DecidableEq, Inhabited

/-- A computed route (spec 3 Route). -/
structure Route where
  mode : String
  provider : Option Provider := none
  model : String := ""
  requestedModel : String := ""
  reason : String := ""
deriving Repr, DecidableEq, Inhabited

/-- Modelled from the spec: `normalizeEndpoint` (infra/util, not under
src/) — endpoint-name normalization; an empty result makes the shim
pass through. -/
def normalizeEndpoint (s : String) : String := jsTrim s

/-- `isTelemetryDisabled(cfg, ep)` (shim.js:165-168). -/
def isTelemetryDisabled (cfg : ByokConfig) (ep : String) : Bool :=
  cfg.telemetryDisabledEndpoints.contains ep

/-- Modelled from the spec: `decideRoute` (core/router, not under src/)
per spec 4.1 — `runtimeEnabled = false` gives official unconditionally;
otherwise an explicit rule selects disabled/byok (provider resolved by
id with first-provider fallback, model from default then first declared
model, discovery deferred) and no matching rule gives official. -/
def decideRoute (cfg : ByokConfig) (endpoint : String) (body : Json)
    (runtimeEnabled : Bool) : Route :=
  if runtimeEnabled = false then { mode := "official", reason := "runtime disabled" }
  else
    let requestedModel := normalizeStringJson (body.lookup "model")
    match cfg.rules.find? (fun r => r.endpoint = endpoint) with
    | none => { mode := "official", reason := "no rule", requestedModel := requestedModel }
    | some r =>
        if r.mode = "disabled" then
          { mode := "disabled", reason := "rule disabled", requestedModel := requestedModel }
        else if r.mode = "byok" then
          let provider? :=
            match cfg.providers.find? (fun p => normalizeString p.id = normalizeString r.providerId) with
            | some p => some p
            | none => cfg.providers.head?
          match provider? with
          | none => { mode := "official", reason := "no provider", requestedModel := requestedModel }
          | some p =>
              let model :=
                if normalizeString p.defaultModel ≠ "" then normalizeString p.defaultModel
                else ((p.models.map normalizeString).filter (· ≠ "")).headD ""
              { mode := "byok", provider := some p, model := model,
                requestedModel := requestedModel, reason := "rule byok" }
        else { mode := "official", reason := "rule official", requestedModel := requestedModel }

/-- Which branch a call-api entry point takes: official pass-through
(return `undefined`), the telemetry/disabled stub transforms, or a BYOK
handler with its route. -/
inductive CallApiDecision where
  | passthroughOfficial
  | telemetryStub
  | disabledStub
  | byokHandled (route : Route)
deriving Repr, DecidableEq, Inhabited

/-- The routing prefix of `maybeHandleCallApi` (shim.js:472-500): empty
endpoint or disabled runtime pass through before any routing; telemetry
endpoints get the stub transform; then the route's mode dispatches. -/
def maybeHandleCallApiDecision (runtimeEnabled : Bool) (cfg : ByokConfig)
    (endpoint : String) (body : Json) : CallApiDecision :=
  let ep := normalizeEndpoint endpoint
  if ep = "" then CallApiDecision.passthroughOfficial
  else if runtimeEnabled = false then CallApiDecision.passthroughOfficial
  else if isTelemetryDisabled cfg ep then CallApiDecision.telemetryStub
  else
    let route := decideRoute cfg ep body runtimeEnabled
    if route.mode = "official" then CallApiDecision.passthroughOfficial
    else if route.mode = "disabled" then CallApiDecision.disabledStub
    else if route.mode ≠ "byok" then CallApiDecision.passthroughOfficial
    else CallApiDecision.byokHandled route

/-- The routing prefix of `maybeHandleCallApiStream` (shim.js:631-648):
same guard order except the telemetry check runs after the route
dispatch and yields the empty stream. -/
def maybeHandleCallApiStreamDecision (runtimeEnabled : Bool) (cfg : ByokConfig)
    (endpoint : String) (body : Json) : CallApiDecision :=
  let ep := normalizeEndpoint endpoint
  if ep = "" then CallApiDecision.passthroughOfficial
  else if runtimeEnabled = false then CallApiDecision.passthroughOfficial
  else
    let route := decideRoute cfg ep body runtimeEnabled
    if route.mode = "official" then CallApiDecision.passthroughOfficial
    else if route.mode = "disabled" then CallApiDecision.disabledStub
    else if route.mode ≠ "byok" then CallApiDecision.passthroughOfficial
    else if isTelemetryDisabled cfg ep then CallApiDecision.disabledStub
    else CallApiDecision.byokHandled route

/-- C4: with `runtimeEnabled = false`, both call-api entry points return
the official pass-through for every endpoint, request body, and
configuration (rules and providers included), and the routing decision
itself is mode `official` — the core transform is never invoked. -/
theorem runtime_disabled_routes_official (cfg : ByokConfig) (endpoint : String) (body : Json) :
    maybeHandleCallApiDecision false cfg endpoint body = CallApiDecision.passthroughOfficial ∧
    maybeHandleCallApiStreamDecision false cfg endpoint body = CallApiDecision.passthroughOfficial ∧
    (decideRoute cfg endpoint body false).mode = "official" := by
  refine ⟨?_, ?_, ?_⟩
  · by_cases hep : normalizeEndpoint endpoint = "" <;>
      simp [maybeHandleCallApiDecision, hep]
  · by_cases hep : normalizeEndpoint endpoint = "" <;>
      simp [maybeHandleCallApiStreamDecision, hep]
  · simp [decideRoute]

/-! ## The self-test harness (part_001): provider probes, the report
state machine, and the real-tools round-trip probe (C2, C3, C6) -/

/-- One recorded test: the objects pushed by `record` in
`selfTestProvider` (part_001:893-903) and by `report.global.tests.push`
in `runSelfTest`. -/
structure TestResult where
  name : String
  ok : Bool
  ms : Nat := 0
  detail : String := ""
deriving Repr, DecidableEq, Inhabited

/-- Outcome of `withTimed(fn)` (part_001:295-311): `{ok:true, ms, res}`
when the awaited probe resolves, `{ok:false, ms, error}` when it throws.
The probe bodies perform network I/O, so each occurrence is an oracle
input of the embedding. -/
inductive TimedOutcome (A : Type) where
  | ok (ms : Nat) (res : A)
  | fail (ms : Nat) (error : String)
deriving Repr, DecidableEq

/-- `res.ok` of a `withTimed` outcome. -/
def TimedOutcome.isOk : TimedOutcome A → Bool
  | TimedOutcome.ok _ _ => true
  | TimedOutcome.fail _ _ => false

/-- `res.error` of a `withTimed` outcome ("" when it resolved, as JS
`undefined` normalizes to ""). -/
def TimedOutcome.errorText : TimedOutcome A → String
  | TimedOutcome.ok _ _ => ""
  | TimedOutcome.fail _ e => e

/-- The `tool_use` payload of a response node as the self-test reads it
(part_001:264-280); the snake_case/camelCase alias tolerance collapses
into one typed field each. -/
structure ToolUseData where
  tool_use_id : String := ""
  tool_name : String := ""
  input_json : String := ""
  mcp_server_name : String := ""
  mcp_tool_name : String := ""
deriving Repr, DecidableEq, Inhabited

/-- The `token_usage` payload of a response node (part_001:282-293);
absent counters are `none` (JS `Number(undefined)` is NaN). -/
structure TokenUsageData where
  input_tokens : Option Int := none
  output_tokens : Option Int := none
  cache_read_input_tokens : Option Int := none
deriving Repr, DecidableEq, Inhabited

/-- Typed view of a collected response node as the self-test reads it:
a tool-use node, a token-usage node (the numeric protocol tags
`RESPONSE_NODE_TOOL_USE` / `RESPONSE_NODE_TOKEN_USAGE` collapse into the
constructors), or anything else. -/
inductive ResponseNode where
  | toolUse (tu : ToolUseData)
  | tokenUsage (tu : TokenUsageData)
  | other
deriving Repr, DecidableEq, Inhabited

/-- `extractToolUsesFromNodes(nodes)` (part_001:264-280): keep tool-use
nodes with a non-blank id and name, normalizing the string fields. -/
def extractToolUsesFromNodes (nodes : List ResponseNode) : List ToolUseData :=
  nodes.filterMap fun n =>
    match n with
    | ResponseNode.toolUse tu =>
        let id := normalizeString tu.tool_use_id
        let name := normalizeString tu.tool_name
        if id = "" ∨ name = "" then none
        else some { tool_use_id := id, tool_name := name, input_json := tu.input_json,
                    mcp_server_name := normalizeString tu.mcp_server_name,
                    mcp_tool_name := normalizeString tu.mcp_tool_name }
    | _ => none

/-- `extractTokenUsageFromNodes(nodes)` (part_001:282-293): the last
token-usage node, if any. -/
def extractTokenUsageFromNodes (nodes : List ResponseNode) : Option TokenUsageData :=
  nodes.foldl (fun acc n =>
    match n with
    | ResponseNode.tokenUsage tu => some tu
    | _ => acc) none

/-- Collected chat-stream result as the provider probes read it: the
`collectChatStream` value with the nodes viewed through the typed
`ResponseNode` lens and the stop reason as a string ("" stands for a
missing stop reason, which is falsy like JS null/undefined). -/
structure ChatProbeResult where
  text : String := ""
  nodes : List ResponseNode := []
  stop_reason : String := ""
deriving Repr, DecidableEq, Inhabited

/-- `normalizeString(res?.stop_reason) || "n/a"`. -/
def stopReasonOrNa (res : ChatProbeResult) : String :=
  let s := normalizeString res.stop_reason
  if s = "" then "n/a" else s

/-- JS `s || dflt` on strings. -/
def orElseStr (s dflt : String) : String := if s = "" then dflt else s

/-- `hasAuthHeader(headers)` (part_001:143-147). -/
def hasAuthHeader (headers : List (String × String)) : Bool :=
  headers.any fun p =>
    let k := jsToLower (jsTrim p.1)
    k = "authorization" || k = "x-api-key" || k = "api-key" || k = "x-goog-api-key"

/-- Modelled from the spec: the protocol constant
`STOP_REASON_TOOL_USE_REQUESTED` (augment-protocol, not under src/), as
an abstract stop-reason token compared against collected stop reasons. -/
def STOP_REASON_TOOL_USE_REQUESTED : String := "tool_use_requested"

/-- `formatMaybeInt(v)` (part_001:160-163) on a typed optional integer
(`Number(undefined)` is NaN, giving ""). -/
def formatMaybeInt : Option Int → String
  | none => ""
  | some n => toString n

/-- `pickProviderModel(provider, fetchedModels)` (part_001:452-460):
defaultModel, else the first non-blank local model, else the first
non-blank fetched model. -/
def pickProviderModel (provider : Provider) (fetchedModels : List String) : String :=
  let dm := normalizeString provider.defaultModel
  if dm ≠ "" then dm
  else
    let firstLocal := ((provider.models.map normalizeString).filter fun s => decide (s ≠ "")).headD ""
    if firstLocal ≠ "" then firstLocal
    else ((fetchedModels.map normalizeString).filter fun s => decide (s ≠ "")).headD ""

/-- Result of `summarizeToolDefs` (core/self-test/tool-defs:71-84). -/
structure ToolDefsSummary where
  count : Nat
  names : List String
  namesTruncated : Bool
deriving Repr, DecidableEq, Inhabited

/-- Name-collection loop of `summarizeToolDefs`: distinct non-blank
normalized names in order; `remaining` is `maxNames - names.length`, so
the JS `names.length >= maxNames` break is `remaining = 1` after a
push. -/
def summarizeNamesGo (seen : List String) (remaining : Nat) : List ToolDef → List String
  | [] => []
  | d :: rest =>
      let n := normalizeString d.name
      if n = "" ∨ seen.contains n then summarizeNamesGo seen remaining rest
      else
        match remaining with
        | 0 => []
        | 1 => [n]
        | Nat.succ (Nat.succ r) => n :: summarizeNamesGo (n :: seen) (Nat.succ r) rest

/-- `summarizeToolDefs(toolDefs)` (core/self-test/tool-defs:71-84): the
raw count plus the first 12 distinct non-blank normalized names. -/
def summarizeToolDefs (defs : List ToolDef) : ToolDefsSummary :=
  let names := summarizeNamesGo [] 12 defs
  { count := defs.length, names := names, namesTruncated := defs.length > names.length }

/-- A provider's self-test entry (part_001:884-891). -/
structure SelfTestEntry where
  providerId : String := ""
  providerType : String := ""
  model : String := ""
  tests : List TestResult := []
  ok : Bool := true
  msTotal : Nat := 0
deriving Repr, DecidableEq, Inhabited

/-- `record(t)` (part_001:893-903): push the test and clear `entry.ok`
when the test failed. -/
def recordTest (e : SelfTestEntry) (t : TestResult) : SelfTestEntry :=
  { e with tests := e.tests ++ [t], ok := e.ok && t.ok }

/-- The `{ok, detail}` value returned by the real-tools round-trip
probe as `selfTestProvider` reads it (its computation is embedded
separately as `realToolsToolRoundtripByProvider`). -/
structure RoundtripSummary where
  ok : Bool := false
  detail : String := ""
deriving Repr, DecidableEq, Inhabited

/-- Oracle inputs for one `selfTestProvider` run (part_001:879-1161):
the provider record plus the outcome of each awaited probe, in program
order; unreached oracles are simply never read.  `msTotal` is the
wall-clock total the `finally` block stores.  In `runSelfTest` the
provider list iterated is exactly the worlds' provider records. -/
structure ProviderProbeWorld where
  provider : Provider := {}
  modelsRes : TimedOutcome (List String) := TimedOutcome.fail 0 ""
  completionRes : TimedOutcome String := TimedOutcome.fail 0 ""
  streamRes : TimedOutcome String := TimedOutcome.fail 0 ""
  nextEditRes : TimedOutcome String := TimedOutcome.fail 0 ""
  nextEditLocRes : TimedOutcome String := TimedOutcome.fail 0 ""
  chatRes : TimedOutcome ChatProbeResult := TimedOutcome.fail 0 ""
  realToolsSchemaRes : TimedOutcome Nat := TimedOutcome.fail 0 ""
  realToolsRoundtripRes : TimedOutcome RoundtripSummary := TimedOutcome.fail 0 ""
  toolChatRes : TimedOutcome ChatProbeResult := TimedOutcome.fail 0 ""
  toolRoundtripRes : TimedOutcome ChatProbeResult := TimedOutcome.fail 0 ""
  msTotal : Nat := 0
deriving Repr, DecidableEq

/-- The `finally` block (part_001:1156-1159): store the wall-clock
total on whichever entry is returned. -/
def finishEntry (w : ProviderProbeWorld) (e : SelfTestEntry) : SelfTestEntry :=
  { e with msTotal := w.msTotal }

/-- The shared shape of the completeText/streamText/nextEdit/nextEditLoc
records (part_001:941-1013): ok iff the probe resolved with non-blank
text. -/
def mkTextProbeTest (name : String) (r : TimedOutcome String) : TestResult :=
  match r with
  | TimedOutcome.ok ms res =>
      if normalizeString res ≠ "" then
        { name := name, ok := true, ms := ms, detail := "len=" ++ toString res.length }
      else { name := name, ok := false, ms := ms, detail := "empty output" }
  | TimedOutcome.fail ms e => { name := name, ok := false, ms := ms, detail := e }

/-- The chatStream record (part_001:1022-1040): ok iff the stream
resolved with non-blank text or a non-empty node list. -/
def mkChatStreamTest (r : TimedOutcome ChatProbeResult) : TestResult :=
  match r with
  | TimedOutcome.fail ms e => { name := "chatStream", ok := false, ms := ms, detail := e }
  | TimedOutcome.ok ms res =>
      if normalizeString res.text ≠ "" ∨ ¬ res.nodes.isEmpty then
        let usage :=
          match extractTokenUsageFromNodes res.nodes with
          | none => ""
          | some tu =>
              " tokens=" ++ orElseStr (formatMaybeInt tu.input_tokens) "?" ++ "/" ++
                orElseStr (formatMaybeInt tu.output_tokens) "?" ++
                " cached=" ++ orElseStr (formatMaybeInt tu.cache_read_input_tokens) "0"
        { name := "chatStream", ok := true, ms := ms,
          detail := "textLen=" ++ toString res.text.length ++ " nodes=" ++
            toString res.nodes.length ++ usage }
      else { name := "chatStream", ok := false, ms := ms, detail := "empty output" }

/-- The realToolsSchema record (part_001:1044-1058).  The timed body
converts the captured defs with the provider-type dialect converter and
throws on a validation failure; those converters live outside src/ for
all but the responses dialect, so the timed outcome (converted count or
thrown message) is an oracle input. -/
def mkRealToolsSchemaTest (cap : List ToolDef) (r : TimedOutcome Nat) : TestResult :=
  let sum := summarizeToolDefs cap
  match r with
  | TimedOutcome.ok ms cnt =>
      { name := "realToolsSchema", ok := true, ms := ms,
        detail := "tools=" ++ toString sum.count ++ " converted=" ++ toString cnt ++
          " names=" ++ String.intercalate "," sum.names ++
          (if sum.namesTruncated then ",…" else "") }
  | TimedOutcome.fail ms e => { name := "realToolsSchema", ok := false, ms := ms, detail := e }

/-- The realToolsToolRoundtrip record (part_001:1061-1072): ok iff the
timed call resolved and the returned probe result has ok true. -/
def mkRealToolsRoundtripTest (r : TimedOutcome RoundtripSummary) : TestResult :=
  match r with
  | TimedOutcome.ok ms s =>
      if s.ok then
        { name := "realToolsToolRoundtrip", ok := true, ms := ms, detail := s.detail }
      else
        { name := "realToolsToolRoundtrip", ok := false, ms := ms,
          detail := orElseStr s.detail "failed" }
  | TimedOutcome.fail ms e =>
      { name := "realToolsToolRoundtrip", ok := false, ms := ms, detail := e }

/-- The toolRoundtrip record (part_001:1139-1144): ok iff the follow-up
chat resolved with non-blank text. -/
def mkToolRoundtripTest (r : TimedOutcome ChatProbeResult) : TestResult :=
  match r with
  | TimedOutcome.ok ms res =>
      if normalizeString res.text ≠ "" then
        { name := "toolRoundtrip", ok := true, ms := ms,
          detail := "textLen=" ++ toString res.text.length }
      else { name := "toolRoundtrip", ok := false, ms := ms, detail := "empty output" }
  | TimedOutcome.fail ms e => { name := "toolRoundtrip", ok := false, ms := ms, detail := e }

/-- `selfTestProvider` (part_001:879-1161) over a probe-oracle world:
the config gate, the models probe and model resolution with its early
return, the text/stream/next-edit/chat probes, the real-tools pair (or
their skipped records), the tools+multimodal probe with its early
return, the tool round-trip, and the two optional note records. -/
def selfTestProvider (w : ProviderProbeWorld) (capturedToolDefinitions : List ToolDef) :
    SelfTestEntry :=
  let provider := w.provider
  let type := normalizeString provider.type
  let entry0 : SelfTestEntry :=
    { providerId := normalizeString provider.id, providerType := type }
  let baseUrl := normalizeString provider.baseUrl
  let apiKey := normalizeString provider.apiKey
  let authOk : Prop := apiKey ≠ "" ∨ hasAuthHeader provider.headers = true
  if type = "" ∨ baseUrl = "" ∨ ¬ authOk then
    finishEntry w (recordTest entry0
      { name := "config", ok := false, ms := 0,
        detail := "type/baseUrl/auth 未配置完整（type=" ++ orElseStr type "?" ++
          ", baseUrl=" ++ orElseStr baseUrl "?" ++
          ", auth=" ++ (if authOk then "set" else "empty") ++ "）" })
  else
    let entry1 :=
      match w.modelsRes with
      | TimedOutcome.ok ms models =>
          { recordTest entry0
              { name := "models", ok := true, ms := ms,
                detail := "models=" ++ toString models.length } with
            model := pickProviderModel provider models }
      | TimedOutcome.fail ms e =>
          { recordTest entry0 { name := "models", ok := false, ms := ms, detail := e } with
            model := pickProviderModel provider [] }
    let model := normalizeString entry1.model
    if model = "" then
      finishEntry w (recordTest entry1
        { name := "model", ok := false, ms := 0,
          detail := "未找到可用 model（请配置 providers[].defaultModel 或 models[]）" })
    else
      let e6 :=
        recordTest (recordTest (recordTest (recordTest (recordTest entry1
          (mkTextProbeTest "completeText" w.completionRes))
          (mkTextProbeTest "streamText" w.streamRes))
          (mkTextProbeTest "nextEdit" w.nextEditRes))
          (mkTextProbeTest "nextEditLoc" w.nextEditLocRes))
          (mkChatStreamTest w.chatRes)
      let e7 :=
        if capturedToolDefinitions.isEmpty then
          recordTest (recordTest e6
            { name := "realToolsSchema", ok := true, ms := 0,
              detail := "skipped (no captured tool_definitions yet)" })
            { name := "realToolsToolRoundtrip", ok := true, ms := 0,
              detail := "skipped (no captured tool_definitions yet)" }
        else
          recordTest (recordTest e6
            (mkRealToolsSchemaTest capturedToolDefinitions w.realToolsSchemaRes))
            (mkRealToolsRoundtripTest w.realToolsRoundtripRes)
      match w.toolChatRes with
      | TimedOutcome.fail ms e =>
          finishEntry w (recordTest e7
            { name := "tools+multimodal", ok := false, ms := ms, detail := e })
      | TimedOutcome.ok ms res =>
          match extractToolUsesFromNodes res.nodes with
          | [] =>
              finishEntry w (recordTest (recordTest e7
                { name := "tools+multimodal", ok := true, ms := ms,
                  detail := "no tool_use observed (stop_reason=" ++ stopReasonOrNa res ++ ")" })
                { name := "toolRoundtrip", ok := true, ms := 0,
                  detail := "skipped (no tool call)" })
          | first :: _ =>
              let e8 := recordTest e7
                { name := "tools+multimodal", ok := true, ms := ms,
                  detail := "tool=" ++ first.tool_name ++ " id=" ++ first.tool_use_id ++
                    " stop_reason=" ++ stopReasonOrNa res }
              let e9 := recordTest e8 (mkToolRoundtripTest w.toolRoundtripRes)
              let errN := normalizeString w.toolRoundtripRes.errorText
              let e10 :=
                if errN ≠ "" ∧ jsIncludes errN "tool_result_missing" = true then
                  recordTest e9
                    { name := "note", ok := true, ms := 0,
                      detail := "观察到 tool_result_missing：说明工具执行/回填缺失被容错降级（不是 400/422）。" }
                else e9
              let e11 :=
                if res.stop_reason ≠ "" ∧ res.stop_reason ≠ STOP_REASON_TOOL_USE_REQUESTED then
                  recordTest e10
                    { name := "note", ok := true, ms := 0,
                      detail := "模型 stop_reason=" ++ res.stop_reason ++
                        "（可能未真正进入工具模式）" }
                else e10
              finishEntry w e11

/-! ### Probe isolation and the abort conditions of selfTestProvider (C3) -/

/-- The config gate of `selfTestProvider` (part_001:906-919): type,
baseUrl and a credential (apiKey or an auth header) all present. -/
def providerConfigOk (p : Provider) : Prop :=
  normalizeString p.type ≠ "" ∧ normalizeString p.baseUrl ≠ "" ∧
    (normalizeString p.apiKey ≠ "" ∨ hasAuthHeader p.headers = true)

instance (p : Provider) : Decidable (providerConfigOk p) := by
  unfold providerConfigOk; infer_instance

/-- The model `selfTestProvider` resolves after the models probe
(part_001:924-935): `normalizeString(entry.model)` where `entry.model`
is picked from the fetched list on success and from `[]` on failure. -/
def resolvedModel (w : ProviderProbeWorld) : String :=
  normalizeString
    (match w.modelsRes with
     | TimedOutcome.ok _ models => pickProviderModel w.provider models
     | TimedOutcome.fail _ _ => pickProviderModel w.provider [])

/-- Names: `.name` of each recorded test. -/
def testNames (e : SelfTestEntry) : List String := e.tests.map fun t => t.name

theorem mkTextProbeTest_name (n : String) (r : TimedOutcome String) :
    (mkTextProbeTest n r).name = n := by
  cases r with
  | ok ms res =>
      by_cases h : normalizeString res ≠ "" <;> simp [mkTextProbeTest, h]
  | fail ms e => rfl

theorem mkChatStreamTest_name (r : TimedOutcome ChatProbeResult) :
    (mkChatStreamTest r).name = "chatStream" := by
  cases r with
  | ok ms res =>
      simp only [mkChatStreamTest]
      split <;> rfl
  | fail ms e => rfl

theorem mkRealToolsSchemaTest_name (cap : List ToolDef) (r : TimedOutcome Nat) :
    (mkRealToolsSchemaTest cap r).name = "realToolsSchema" := by
  cases r <;> rfl

theorem mkRealToolsRoundtripTest_name (r : TimedOutcome RoundtripSummary) :
    (mkRealToolsRoundtripTest r).name = "realToolsToolRoundtrip" := by
  cases r with
  | ok ms s => by_cases h : s.ok <;> simp [mkRealToolsRoundtripTest, h]
  | fail ms e => rfl

theorem mkToolRoundtripTest_name (r : TimedOutcome ChatProbeResult) :
    (mkToolRoundtripTest r).name = "toolRoundtrip" := by
  cases r with
  | ok ms res =>
      by_cases h : normalizeString res.text ≠ "" <;> simp [mkToolRoundtripTest, h]
  | fail ms e => rfl

/-- A concrete world with a complete configuration whose model cannot be
resolved: the models fetch fails and the provider declares neither a
defaultModel nor a local models list. -/
def demoAbortProvider : Provider :=
  { id := "p1", type := "openai_compatible",
    baseUrl := "https://api.example.com", apiKey := "sk-test" }

def demoAbortWorld : ProviderProbeWorld :=
  { provider := demoAbortProvider,
    modelsRes := TimedOutcome.fail 5 "HTTP 500",
    completionRes := TimedOutcome.ok 1 "OK",
    streamRes := TimedOutcome.ok 1 "OK",
    nextEditRes := TimedOutcome.ok 1 "OK",
    nextEditLocRes := TimedOutcome.ok 1 "OK",
    chatRes := TimedOutcome.ok 1 { text := "OK-chat" },
    toolChatRes := TimedOutcome.ok 1 { text := "OK" },
    toolRoundtripRes := TimedOutcome.ok 1 { text := "OK-tool" } }

/-- C3 counterexample: a provider with a complete configuration (type,
baseUrl and credential all set) still has its remaining probes aborted
when no model can be resolved after the models probe (part_001:934-938):
only the models and model records exist, and the completeText probe is
never recorded, refuting "the only condition that aborts the remaining
probes is a missing or invalid provider configuration". -/
theorem selfTestProvider_abort_counterexample :
    providerConfigOk demoAbortWorld.provider ∧
    testNames (selfTestProvider demoAbortWorld []) = ["models", "model"] ∧
    (testNames (selfTestProvider demoAbortWorld [])).count "completeText" = 0 ∧
    (selfTestProvider demoAbortWorld []).ok = false := by
  refine ⟨by decide, by decide, by decide, by decide⟩

/-- C3 (amended): given a complete provider configuration AND a
resolvable model, every probe outcome — success or failure — is
recorded as a TestResult and execution continues through the fixed
probe sequence models, completeText, streamText, nextEdit, nextEditLoc,
chatStream, realToolsSchema, realToolsToolRoundtrip, tools+multimodal;
the tool round-trip record exists iff the tools+multimodal chat call
resolved: an unresolvable model and a failed tools+multimodal probe
also abort the remaining probes, not only an invalid configuration. -/
theorem selfTestProvider_probe_isolation (w : ProviderProbeWorld) (cap : List ToolDef)
    (hcfg : providerConfigOk w.provider) (hmodel : resolvedModel w ≠ "") :
    (testNames (selfTestProvider w cap)).take 9 =
      ["models", "completeText", "streamText", "nextEdit", "nextEditLoc", "chatStream",
       "realToolsSchema", "realToolsToolRoundtrip", "tools+multimodal"] ∧
    ("toolRoundtrip" ∈ testNames (selfTestProvider w cap) ↔ w.toolChatRes.isOk = true) := by
  obtain ⟨h1, h2, h3⟩ := hcfg
  have hcond : ¬ (normalizeString w.provider.type = "" ∨
      normalizeString w.provider.baseUrl = "" ∨
      ¬ (normalizeString w.provider.apiKey ≠ "" ∨ hasAuthHeader w.provider.headers = true)) := by
    push_neg
    exact ⟨h1, h2, h3⟩
  have hmm := hmodel
  unfold resolvedModel at hmm
  simp only [selfTestProvider, testNames]
  rw [if_neg hcond]
  cases hm : w.modelsRes with
  | ok ms models =>
      rw [hm] at hmm
      dsimp only [recordTest] at hmm ⊢
      rw [if_neg hmm]
      cases ht : w.toolChatRes with
      | fail tms terr =>
          dsimp only
          by_cases hcap : cap.isEmpty = true <;>
            refine ⟨?_, ?_⟩ <;>
              simp [hcap, finishEntry, recordTest, mkTextProbeTest_name, mkChatStreamTest_name,
                mkRealToolsSchemaTest_name, mkRealToolsRoundtripTest_name,
                mkToolRoundtripTest_name, TimedOutcome.isOk]
      | ok tms tres =>
          dsimp only
          cases hx : extractToolUsesFromNodes tres.nodes with
          | nil =>
              by_cases hcap : cap.isEmpty = true <;>
                refine ⟨?_, ?_⟩ <;>
                  simp [hcap, finishEntry, recordTest, mkTextProbeTest_name, mkChatStreamTest_name,
                    mkRealToolsSchemaTest_name, mkRealToolsRoundtripTest_name,
                    mkToolRoundtripTest_name, TimedOutcome.isOk]
          | cons first rest =>
              by_cases hcap : cap.isEmpty = true <;>
                refine ⟨?_, ?_⟩ <;>
                  simp [hcap, finishEntry, recordTest, mkTextProbeTest_name, mkChatStreamTest_name,
                    mkRealToolsSchemaTest_name, mkRealToolsRoundtripTest_name,
                    mkToolRoundtripTest_name, TimedOutcome.isOk] <;>
                  split_ifs <;>
                    simp [mkTextProbeTest_name, mkChatStreamTest_name,
                      mkRealToolsSchemaTest_name, mkRealToolsRoundtripTest_name,
                      mkToolRoundtripTest_name]
  | fail ms err =>
      rw [hm] at hmm
      dsimp only [recordTest] at hmm ⊢
      rw [if_neg hmm]
      cases ht : w.toolChatRes with
      | fail tms terr =>
          dsimp only
          by_cases hcap : cap.isEmpty = true <;>
            refine ⟨?_, ?_⟩ <;>
              simp [hcap, finishEntry, recordTest, mkTextProbeTest_name, mkChatStreamTest_name,
                mkRealToolsSchemaTest_name, mkRealToolsRoundtripTest_name,
                mkToolRoundtripTest_name, TimedOutcome.isOk]
      | ok tms tres =>
          dsimp only
          cases hx : extractToolUsesFromNodes tres.nodes with
          | nil =>
              by_cases hcap : cap.isEmpty = true <;>
                refine ⟨?_, ?_⟩ <;>
                  simp [hcap, finishEntry, recordTest, mkTextProbeTest_name, mkChatStreamTest_name,
                    mkRealToolsSchemaTest_name, mkRealToolsRoundtripTest_name,
                    mkToolRoundtripTest_name, TimedOutcome.isOk]
          | cons first rest =>
              by_cases hcap : cap.isEmpty = true <;>
                refine ⟨?_, ?_⟩ <;>
                  simp [hcap, finishEntry, recordTest, mkTextProbeTest_name, mkChatStreamTest_name,
                    mkRealToolsSchemaTest_name, mkRealToolsRoundtripTest_name,
                    mkToolRoundtripTest_name, TimedOutcome.isOk] <;>
                  split_ifs <;>
                    simp [mkTextProbeTest_name, mkChatStreamTest_name,
                      mkRealToolsSchemaTest_name, mkRealToolsRoundtripTest_name,
                      mkToolRoundtripTest_name]

def demoProbeProvider : Provider :=
  { id := "p1", type := "openai_compatible",
    baseUrl := "https://api.example.com", apiKey := "sk-test", defaultModel := "gpt-test" }

def demoToolChatResult : ChatProbeResult :=
  { text := "",
    nodes := [ResponseNode.toolUse { tool_use_id := "id1", tool_name := "echo_self_test" }],
    stop_reason := "tool_use_requested" }

/-- A fully-configured world whose completeText probe fails but whose
tools+multimodal probe yields a tool use. -/
def demoProbeWorld : ProviderProbeWorld :=
  { provider := demoProbeProvider,
    modelsRes := TimedOutcome.ok 3 ["gpt-test"],
    completionRes := TimedOutcome.fail 2 "HTTP 500",
    streamRes := TimedOutcome.ok 2 "OK",
    nextEditRes := TimedOutcome.ok 2 "OK",
    nextEditLocRes := TimedOutcome.ok 2 "OK",
    chatRes := TimedOutcome.ok 2 { text := "OK-chat" },
    toolChatRes := TimedOutcome.ok 2 demoToolChatResult,
    toolRoundtripRes := TimedOutcome.ok 2 { text := "OK-tool" } }

/-- Witness for the amended C3 theorem at a concrete world. -/
theorem selfTestProvider_probe_isolation_witness :
    providerConfigOk demoProbeWorld.provider ∧ resolvedModel demoProbeWorld ≠ "" ∧
    ((testNames (selfTestProvider demoProbeWorld [])).take 9 =
      ["models", "completeText", "streamText", "nextEdit", "nextEditLoc", "chatStream",
       "realToolsSchema", "realToolsToolRoundtrip", "tools+multimodal"] ∧
     ("toolRoundtrip" ∈ testNames (selfTestProvider demoProbeWorld []) ↔
       demoProbeWorld.toolChatRes.isOk = true)) :=
  ⟨by decide, by decide,
    selfTestProvider_probe_isolation demoProbeWorld [] (by decide) (by decide)⟩

/-! ### The self-test report state machine (C2) -/

/-- Payload of `selfTestToolsModelExec` as `runSelfTest` reads it
(part_001:1396-1415); the execution itself drives real upstream tools,
so the timed outcome is an oracle input. -/
structure ExecSummary where
  ok : Bool := false
  ms : Nat := 0
  detail : String := ""
  failedTools : List String := []
deriving Repr, DecidableEq, Inhabited

/-- Payload of `fetchLocalToolDefinitionsFromUpstream` as `runSelfTest`
reads it (part_001:1301-1312). -/
structure UpstreamToolDefs where
  defs : List ToolDef := []
  detail : String := ""
deriving Inhabited

/-- Outcome of `selfTestHistorySummary` (part_001:1163-1237): two timed
summarization rounds against the fallback provider, reduced to the
`{ok, ms, detail}` record `runSelfTest` consumes. -/
structure HistorySummaryOutcome where
  ok : Bool := false
  ms : Nat := 0
  detail : String := ""
deriving Repr, DecidableEq, Inhabited

/-- Oracle inputs for one `runSelfTest` run (part_001:1263-1442): the
captured tool definitions, the upstream fallback fetch, the timed
real-execution probe, one probe world per configured provider (the
configured provider list is exactly the worlds' provider records), and
the history-summary outcome.  Run ids and wall-clock timestamps are
not modelled. -/
structure SelfTestWorld where
  capturedToolDefinitions : List ToolDef := []
  upstreamFetchRes : TimedOutcome UpstreamToolDefs := TimedOutcome.fail 0 ""
  strictCapturedMs : Nat := 0
  toolsExecRes : TimedOutcome ExecSummary := TimedOutcome.fail 0 ""
  providerWorlds : List ProviderProbeWorld := []
  historySummaryRes : HistorySummaryOutcome := {}

/-- The report `runSelfTest` returns: `report.ok`, `report.global.tests`
(flattened to `globalTests`), the per-provider entries, and the
`report.global.capturedTools` count/source/namesPreview fields. -/
structure SelfTestReport where
  ok : Bool := true
  globalTests : List TestResult := []
  providers : List SelfTestEntry := []
  capturedToolsCount : Nat := 0
  capturedToolsSource : String := ""
  capturedToolsNames : List String := []
deriving Repr, DecidableEq, Inhabited

/-- `report.global.tests.push(t)` paired with the adjacent
`if (...) report.ok = false` (every failing global push in
part_001:1342-1436 clears `report.ok`; pushes with ok true leave it). -/
def pushGlobal (r : SelfTestReport) (t : TestResult) : SelfTestReport :=
  { r with globalTests := r.globalTests ++ [t], ok := r.ok && t.ok }

/-- `report.providers.push(res)` paired with
`if (!res.ok) report.ok = false` (part_001:1419-1424). -/
def pushProviderEntry (r : SelfTestReport) (e : SelfTestEntry) : SelfTestReport :=
  { r with providers := r.providers ++ [e], ok := r.ok && e.ok }

/-- Result of `summarizeCapturedToolsSchemas` (part_001:319-340). -/
structure SchemasSummary where
  toolCount : Nat
  withMcpMeta : Nat
  sampleOk : Nat
  sampleFailedNames : List String
  sampleFailedTruncated : Bool
deriving Repr, DecidableEq, Inhabited

/-- `summarizeCapturedToolsSchemas(toolDefs)` (part_001:319-340):
dedupe, count MCP-annotated defs, and sample every schema.
`sampleJsonFromSchema` and `JSON.stringify` are total functions of the
model (as they are over the JSON trees occurring here), so every def
samples ok and no failed names arise; the map records that each def is
sampled. -/
def summarizeCapturedToolsSchemas (toolDefs : List ToolDef) : SchemasSummary :=
  let defs := dedupeToolDefsByName toolDefs
  { toolCount := defs.length,
    withMcpMeta := (defs.filter fun d =>
      decide (normalizeString d.mcp_server_name ≠ "" ∨ normalizeString d.mcp_tool_name ≠ "")).length,
    sampleOk := (defs.map fun d => sampleJsonFromSchema (some (resolveToolSchema d)) 0).length,
    sampleFailedNames := [],
    sampleFailedTruncated := false }

/-- The fixed two-property schema of the local strict-schema self test
(part_001:1240-1252). -/
def schemaSelfTestInput : Json :=
  Json.obj [("type", Json.str "object"),
    ("properties", Json.obj [("a", Json.obj [("type", Json.str "string")]),
      ("insert_line_1", Json.obj [("type", Json.str "integer")])]),
    ("required", Json.arr [Json.str "a"])]

/-- `selfTestOpenAiResponsesStrictSchema` (part_001:1239-1261): convert
the fixed schema and check that the first converted tool's parameters
set `additionalProperties:false` and a `required` array covering every
declared property key. -/
def selfTestOpenAiResponsesStrictSchema : Bool :=
  let defs : List ToolDef := [{ name := "schema_self_test", input_schema := schemaSelfTestInput }]
  let tools := convertOpenAiResponsesTools defs
  match tools.head? with
  | none => false
  | some t =>
      let p0 := t.parameters
      let props : List String :=
        match p0 with
        | Json.obj fs => propKeysF fs
        | _ => []
      let apFalse : Bool :=
        match p0 with
        | Json.obj fs =>
            match getField fs "additionalProperties" with
            | some (Json.bool false) => true
            | _ => false
        | _ => false
      let reqArr : Option (List Json) :=
        match p0 with
        | Json.obj fs =>
            match getField fs "required" with
            | some (Json.arr xs) => some xs
            | _ => none
        | _ => none
      match reqArr with
      | none => false
      | some xs =>
          apFalse && (props.filter fun k => !(xs.any fun x => jsonIsStr x k)).isEmpty

/-- Tool-definition resolution of `runSelfTest` (part_001:1289-1322):
the captured defs, else the upstream toolsModel fetch when it resolves
with a non-empty list, else none; paired with the source label. -/
def resolveSelfTestToolDefs (w : SelfTestWorld) : List ToolDef × String :=
  let captured := w.capturedToolDefinitions
  if captured.isEmpty then
    match w.upstreamFetchRes with
    | TimedOutcome.ok _ u => if u.defs.isEmpty then ([], "none") else (u.defs, "upstream(toolsModel)")
    | TimedOutcome.fail _ _ => ([], "none")
  else (captured, "captured")

/-- `runSelfTest` (part_001:1263-1442) over an oracle world: resolve the
tool definitions, run the six global tests around the per-provider loop
(capturedToolsAvailable, capturedToolsSchemaSamples, the two
responsesStrictSchema checks, toolsExec, and historySummary after the
loop), pushing each result and clearing `report.ok` on every failure. -/
def runSelfTest (w : SelfTestWorld) : SelfTestReport :=
  let resolved := resolveSelfTestToolDefs w
  let toolDefs := resolved.1
  let capturedSummary := summarizeToolDefs toolDefs
  let r0 : SelfTestReport :=
    { ok := true, globalTests := [], providers := [],
      capturedToolsCount := capturedSummary.count,
      capturedToolsSource := resolved.2,
      capturedToolsNames := capturedSummary.names }
  let r1 := pushGlobal r0
    (if capturedSummary.count ≠ 0 then
      { name := "capturedToolsAvailable", ok := true,
        detail := "count=" ++ toString capturedSummary.count ++ " source=" ++ resolved.2 }
    else
      { name := "capturedToolsAvailable", ok := false,
        detail := "未捕获到真实 tool_definitions 且无法自动拉取；Self Test 无法覆盖真实工具集" })
  let r2 := pushGlobal r1
    (if toolDefs.isEmpty then
      { name := "capturedToolsSchemaSamples", ok := true, detail := "skipped (no captured tools)" }
    else
      let schemaSum := summarizeCapturedToolsSchemas toolDefs
      { name := "capturedToolsSchemaSamples",
        ok := schemaSum.sampleOk == schemaSum.toolCount,
        detail := "sampleable=" ++ toString schemaSum.sampleOk ++ "/" ++
          toString schemaSum.toolCount ++ " mcpMeta=" ++ toString schemaSum.withMcpMeta ++
          (if schemaSum.sampleFailedNames.isEmpty then "" else
            " failed=" ++ String.intercalate "," schemaSum.sampleFailedNames ++
              (if schemaSum.sampleFailedTruncated then ",…" else "")) })
  let r3 := pushGlobal r2
    { name := "responsesStrictSchema", ok := selfTestOpenAiResponsesStrictSchema }
  let r4 := pushGlobal r3
    (if toolDefs.isEmpty then
      { name := "responsesStrictSchema(capturedTools)", ok := true, ms := 0,
        detail := "skipped (no captured tools)" }
    else
      let tools := convertOpenAiResponsesTools toolDefs
      let v := validateConvertedToolsForProvider "openai_responses" tools
      if v.ok then
        { name := "responsesStrictSchema(capturedTools)", ok := true, ms := w.strictCapturedMs,
          detail := "tools=" ++ toString tools.length }
      else
        { name := "responsesStrictSchema(capturedTools)", ok := false, ms := w.strictCapturedMs,
          detail := String.intercalate " | " (v.issues.take 10) })
  let r5 := pushGlobal r4
    (if toolDefs.isEmpty then
      { name := "toolsExec", ok := true, ms := 0, detail := "skipped (no tools)" }
    else
      match w.toolsExecRes with
      | TimedOutcome.ok _ r =>
          { name := "toolsExec", ok := r.ok, ms := r.ms, detail := normalizeString r.detail }
      | TimedOutcome.fail ms e => { name := "toolsExec", ok := false, ms := ms, detail := e })
  let r6 := w.providerWorlds.foldl (fun r pw => pushProviderEntry r (selfTestProvider pw toolDefs)) r5
  let providers := w.providerWorlds.map fun pw => pw.provider
  let firstOk := providers.find? fun p => decide (providerConfigOk p)
  let fallbackProvider :=
    match firstOk with
    | some p => some p
    | none => providers.head?
  let fallbackModel :=
    match fallbackProvider with
    | none => ""
    | some p => orElseStr (normalizeString p.defaultModel) (normalizeString (p.models.headD ""))
  let r7 := pushGlobal r6
    (match fallbackProvider with
    | none => { name := "historySummary", ok := true, detail := "skipped (no provider configured)" }
    | some _ =>
        if fallbackModel = "" then
          { name := "historySummary", ok := true, detail := "skipped (no provider configured)" }
        else
          { name := "historySummary", ok := w.historySummaryRes.ok,
            ms := w.historySummaryRes.ms, detail := w.historySummaryRes.detail })
  r7

/-- The invariant `entry.ok = all recorded tests ok` that `record`
maintains (part_001:895-897). -/
def entryOkInv (e : SelfTestEntry) : Prop := e.ok = (e.tests.all fun t => t.ok)

theorem recordTest_inv {e : SelfTestEntry} (h : entryOkInv e) (t : TestResult) :
    entryOkInv (recordTest e t) := by
  unfold entryOkInv at h ⊢
  simp [recordTest, List.all_append, h]

theorem finishEntry_inv {w : ProviderProbeWorld} {e : SelfTestEntry} (h : entryOkInv e) :
    entryOkInv (finishEntry w e) := by
  unfold entryOkInv at h ⊢
  simpa [finishEntry] using h

theorem modelSet_inv {m : String} {e : SelfTestEntry} (h : entryOkInv e) :
    entryOkInv { e with model := m } := by
  unfold entryOkInv at h ⊢
  simpa using h


set_option maxHeartbeats 2000000 in
/-- A provider entry's ok flag equals the conjunction of its recorded
tests' ok flags, for every world. -/
theorem selfTestProvider_ok_inv (w : ProviderProbeWorld) (cap : List ToolDef) :
    entryOkInv (selfTestProvider w cap) := by
  simp only [selfTestProvider]
  repeat' split
  all_goals
    unfold entryOkInv
    simp [finishEntry, recordTest, List.all_append, Bool.and_assoc]

/-- The provider loop of `runSelfTest` (part_001:1418-1424) appends one
entry per provider world and conjoins their ok flags into `report.ok`,
leaving the other report fields unchanged. -/
theorem foldPushEntries (defs : List ToolDef) (ws : List ProviderProbeWorld)
    (r : SelfTestReport) :
    ws.foldl (fun a pw => pushProviderEntry a (selfTestProvider pw defs)) r =
      { r with providers := r.providers ++ ws.map fun pw => selfTestProvider pw defs,
               ok := r.ok && (ws.map fun pw => selfTestProvider pw defs).all fun e => e.ok } := by
  induction ws generalizing r with
  | nil => simp
  | cons pw rest ih =>
      rw [List.foldl_cons, ih]
      simp [pushProviderEntry, List.all_cons, Bool.and_assoc]

/-- C2: for every self-test run, `report.ok` is true iff every global
TestResult and every test of every provider entry is ok (any single
failure flips it false), and the report is complete: one provider entry
per configured provider. -/
theorem runSelfTest_ok_iff (w : SelfTestWorld) :
    ((runSelfTest w).ok = true ↔
      ((∀ t ∈ (runSelfTest w).globalTests, t.ok = true) ∧
       (∀ e ∈ (runSelfTest w).providers, e.ok = true ∧ ∀ t ∈ e.tests, t.ok = true))) ∧
    (runSelfTest w).providers.length = w.providerWorlds.length := by
  have hfold := foldPushEntries (resolveSelfTestToolDefs w).1 w.providerWorlds
  have hprov : (runSelfTest w).providers =
      w.providerWorlds.map fun pw => selfTestProvider pw (resolveSelfTestToolDefs w).1 := by
    simp only [runSelfTest]
    rw [hfold]
    simp [pushGlobal]
  have hok : (runSelfTest w).ok =
      (((runSelfTest w).globalTests.all fun t => t.ok) &&
       ((runSelfTest w).providers.all fun e => e.ok)) := by
    simp only [runSelfTest]
    rw [hfold]
    simp [pushGlobal, Bool.and_assoc, Bool.and_comm, Bool.and_left_comm]
  refine ⟨?_, by rw [hprov]; simp⟩
  rw [hok]
  simp only [Bool.and_eq_true, List.all_eq_true]
  constructor
  · rintro ⟨hg, hp⟩
    refine ⟨hg, ?_⟩
    intro e he
    have heok := hp e he
    refine ⟨heok, ?_⟩
    rw [hprov] at he
    obtain ⟨pw, hpw, rfl⟩ := List.mem_map.mp he
    have hinv := selfTestProvider_ok_inv pw (resolveSelfTestToolDefs w).1
    unfold entryOkInv at hinv
    intro t ht
    have hall : ((selfTestProvider pw (resolveSelfTestToolDefs w).1).tests.all fun t => t.ok) = true := by
      rw [← hinv]
      exact heok
    exact List.all_eq_true.mp hall t ht
  · rintro ⟨hg, hp⟩
    exact ⟨hg, fun e he => (hp e he).1⟩

/-! ### The real-tools round-trip probe (C6) -/

/-- Stable insertion into a sorted list: the inserted element goes
before the first element it is ≤-related to, so earlier elements with
equal keys stay first. -/
def insertByLe (le : A → A → Bool) (x : A) : List A → List A
  | [] => [x]
  | y :: ys => if le x y then x :: y :: ys else y :: insertByLe le x ys

/-- Stable sort by a boolean comparator (JS `Array.prototype.sort` is
stable); the insertion formulation keeps the definition
kernel-reducible. -/
def sortByLe (le : A → A → Bool) : List A → List A
  | [] => []
  | x :: xs => insertByLe le x (sortByLe le xs)

/-- The comparator `normalizeString(a?.name).localeCompare(...)` of the
tool-picking phases, modelled as code-point order on the normalized
names. -/
def toolNameLe (a b : ToolDef) : Bool :=
  decide (normalizeString a.name ≤ normalizeString b.name)

/-- `countSchemaProperties(schema)` (part_001:313-317): the number of
keys of the object-valued `properties` member, else 0. -/
def countSchemaProperties (schema : Json) : Nat :=
  match schema with
  | Json.obj fs =>
      match propsOfF fs with
      | some ps => ps.length
      | none => 0
  | _ => 0

/-- `pickRealToolsForUsabilityProbe(toolDefs, {maxTools})`
(part_001:342-399): dedupe; if the cap covers every def return them
sorted by name; otherwise fill by preferred names, then MCP-annotated
defs, then defs ranked by property count, then the name-sorted rest,
first occurrence winning, and cut to the cap.  The phase loops guard on
the raw `maxTools` parameter while the final slice uses the defaulted
`max`; both agree for the positive counts used here. -/
def pickRealToolsForUsabilityProbe (toolDefs : List ToolDef) (maxTools : Nat) : List ToolDef :=
  let defs := dedupeToolDefsByName toolDefs
  let maxT := max 1 (if maxTools = 0 then 4 else maxTools)
  if defs.length ≤ maxT then sortByLe toolNameLe defs
  else
    let findByName := fun (n : String) => defs.find? fun d => normalizeString d.name == n
    let pickByName := fun (st : List ToolDef × List String) (name : String) =>
      if st.1.length ≥ maxTools then st
      else
        let k := normalizeString name
        if k = "" then st
        else
          match findByName k with
          | none => st
          | some d => if st.2.contains k then st else (st.1 ++ [d], st.2 ++ [k])
    let preferred := ["str-replace-editor", "codebase-retrieval", "web-fetch", "web-search",
      "diagnostics"]
    let st1 := preferred.foldl pickByName ([], [])
    let mcpNames := (sortByLe toolNameLe (defs.filter fun d =>
      decide (normalizeString d.mcp_server_name ≠ "" ∨ normalizeString d.mcp_tool_name ≠ ""))).map
        fun d => d.name
    let st2 := mcpNames.foldl pickByName st1
    let rankedNames := (sortByLe
      (fun a b => decide (b.2 < a.2) || (a.2 == b.2 && toolNameLe a.1 b.1))
      (defs.map fun d => (d, countSchemaProperties (resolveToolSchema d)))).map fun p => p.1.name
    let st3 := rankedNames.foldl pickByName st2
    let sortedNames := (sortByLe toolNameLe defs).map fun d => d.name
    let st4 := sortedNames.foldl pickByName st3
    st4.1.take maxT

/-- Fuel-indexed batch slicing; fuel = list length suffices for the
positive chunk size used here. -/
def chunkListGo (size : Nat) : Nat → List A → List (List A)
  | _, [] => []
  | 0, xs => [xs]
  | Nat.succ fuel, xs => xs.take size :: chunkListGo size fuel (xs.drop size)

/-- The batch slicing `for (let i = 0; i < toolNames.length; i += batchSize)`
(part_001:738-740). -/
def chunkList (size : Nat) (xs : List A) : List (List A) := chunkListGo size xs.length xs

/-- The mutable counters of the round-trip loop (part_001:705-710). -/
structure RoundtripAcc where
  calledOk : Nat := 0
  roundtripOk : Nat := 0
  callFailed : List String := []
  roundtripFailed : List String := []
  metaMismatches : List String := []
deriving Repr, DecidableEq, Inhabited

/-- Oracle inputs for one `realToolsToolRoundtripByProvider` run: the
outcome of the two chat-stream calls of each batch, indexed by batch
number (the prompts built for those calls and abort-signal cancellation
are not modelled, as they do not affect the returned value). -/
structure RoundtripWorld where
  batchChat : Nat → Except String ChatProbeResult := fun _ => Except.error ""
  batchRoundtrip : Nat → Except String ChatProbeResult := fun _ => Except.error ""

/-- One iteration of the batch loop (part_001:742-868): a failed chat
call marks the whole batch as call-failed; otherwise the first tool_use
per batch name is matched, every unmatched name is call-failed, every
matched name counts as called with its MCP metadata compared, and the
round-trip reply (absent, failed, or blank vs non-blank) updates the
round-trip counters for the matched names. -/
def processRoundtripBatch (world : RoundtripWorld) (findByName : String → Option ToolDef)
    (bi : Nat) (namesBatch : List String) (acc : RoundtripAcc) : RoundtripAcc :=
  let defsBatch := namesBatch.filterMap findByName
  if defsBatch.isEmpty then acc
  else
    match world.batchChat bi with
    | Except.error _ => { acc with callFailed := acc.callFailed ++ namesBatch }
    | Except.ok res1 =>
        let toolUses := extractToolUsesFromNodes res1.nodes
        let usedByName := toolUses.foldl (fun (m : List (String × ToolUseData)) t =>
          let n := normalizeString t.tool_name
          if n = "" ∨ (m.any fun p => p.1 == n) then m
          else if namesBatch.contains n then m ++ [(n, t)] else m) []
        let acc1 := namesBatch.foldl (fun (a : RoundtripAcc) toolName =>
          match usedByName.find? fun p => p.1 == toolName with
          | none => { a with callFailed := a.callFailed ++ [toolName] }
          | some p =>
              let m := p.2
              let expectedServer :=
                match findByName toolName with
                | some d => normalizeString d.mcp_server_name
                | none => ""
              let expectedTool :=
                match findByName toolName with
                | some d => normalizeString d.mcp_tool_name
                | none => ""
              let a1 := { a with calledOk := a.calledOk + 1 }
              let a2 :=
                if expectedServer ≠ "" ∧ normalizeString m.mcp_server_name ≠ expectedServer then
                  { a1 with metaMismatches := a1.metaMismatches ++
                    ["mcp_server_name " ++ toolName ++ ": expected=" ++ expectedServer ++
                     " got=" ++ orElseStr (normalizeString m.mcp_server_name) "?"] }
                else a1
              if expectedTool ≠ "" ∧ normalizeString m.mcp_tool_name ≠ expectedTool then
                { a2 with metaMismatches := a2.metaMismatches ++
                  ["mcp_tool_name " ++ toolName ++ ": expected=" ++ expectedTool ++
                   " got=" ++ orElseStr (normalizeString m.mcp_tool_name) "?"] }
              else a2) acc
        if usedByName.isEmpty then acc1
        else
          match world.batchRoundtrip bi with
          | Except.error _ =>
              { acc1 with roundtripFailed := acc1.roundtripFailed ++ usedByName.map Prod.fst }
          | Except.ok res2 =>
              if normalizeString res2.text = "" then
                { acc1 with roundtripFailed := acc1.roundtripFailed ++ usedByName.map Prod.fst }
              else { acc1 with roundtripOk := acc1.roundtripOk + usedByName.length }

/-- The value `realToolsToolRoundtripByProvider` returns (part_001:876:
`{ok, detail}`) together with the loop counters those two fields are
computed from. -/
structure RealToolsRoundtripResult where
  ok : Bool
  detail : String
  calledOk : Nat := 0
  roundtripOk : Nat := 0
  callFailed : List String := []
  roundtripFailed : List String := []
  metaMismatches : List String := []
deriving Repr, DecidableEq, Inhabited

/-- `realToolsToolRoundtripByProvider` (part_001:691-877): dedupe, pick
up to maxTools tools, probe them in batches of 6, and summarize; ok iff
no call failure, no round-trip failure and no MCP metadata mismatch
(part_001:875). -/
def realToolsToolRoundtripByProvider (world : RoundtripWorld)
    (toolDefinitions : List ToolDef) (maxTools : Option Int) : RealToolsRoundtripResult :=
  let uniqueDefs := dedupeToolDefsByName toolDefinitions
  let uniqueCount := uniqueDefs.length
  if uniqueCount = 0 then { ok := false, detail := "no tools" }
  else
    let desired :=
      match maxTools with
      | some m => if m > 0 then m.toNat else uniqueCount
      | none => uniqueCount
    let picked := pickRealToolsForUsabilityProbe toolDefinitions (max 1 (min desired uniqueCount))
    let toolNames := (picked.map fun d => normalizeString d.name).filter fun s => decide (s ≠ "")
    if toolNames.isEmpty then { ok := false, detail := "no toolNames" }
    else
      let findByName := fun (n : String) => picked.find? fun d => normalizeString d.name == n
      let st := (chunkList 6 toolNames).enum.foldl
        (fun a b => processRoundtripBatch world findByName b.1 b.2 a) {}
      let detailParts :=
        ["tools=" ++ toString toolNames.length ++ "/" ++ toString uniqueCount,
         "call=" ++ toString st.calledOk ++ "/" ++ toString toolNames.length,
         "roundtrip=" ++ toString st.roundtripOk ++ "/" ++ toString toolNames.length] ++
        (if st.callFailed.isEmpty then [] else
          ["call_fail=" ++ toString st.callFailed.length ++ " first=" ++ st.callFailed.headD ""]) ++
        (if st.roundtripFailed.isEmpty then [] else
          ["roundtrip_fail=" ++ toString st.roundtripFailed.length ++ " first=" ++
            st.roundtripFailed.headD ""]) ++
        (if st.metaMismatches.isEmpty then [] else
          ["meta_mismatch=" ++ toString st.metaMismatches.length ++ " first=" ++
            st.metaMismatches.headD ""])
      { ok := st.callFailed.isEmpty && st.roundtripFailed.isEmpty && st.metaMismatches.isEmpty,
        detail := jsTrim (String.intercalate " " detailParts),
        calledOk := st.calledOk, roundtripOk := st.roundtripOk,
        callFailed := st.callFailed, roundtripFailed := st.roundtripFailed,
        metaMismatches := st.metaMismatches }

def demoMcpToolDef : ToolDef := { name := "t", mcp_server_name := "srv" }

/-- A chat response whose tool_use matches the requested tool by name
but echoes a different MCP server name. -/
def demoMismatchChat : ChatProbeResult :=
  { text := "",
    nodes := [ResponseNode.toolUse { tool_use_id := "id1", tool_name := "t", mcp_server_name := "other" }],
    stop_reason := "" }

def demoMismatchWorld : RoundtripWorld :=
  { batchChat := fun _ => Except.ok demoMismatchChat,
    batchRoundtrip := fun _ => Except.ok { text := "OK-realtools-batch" } }

/-- C6 counterexample: with one tool declaring mcp_server_name "srv"
whose call comes back matched but echoing "other", the mismatch is
recorded, the call is NOT recorded as failed — and yet the probe result
has ok = false (part_001:875 conjoins metaMismatches.length === 0 into
ok), refuting "does not make ... the probe result a failure". -/
theorem realTools_meta_mismatch_counterexample :
    (realToolsToolRoundtripByProvider demoMismatchWorld [demoMcpToolDef] (some 9999)).metaMismatches =
      ["mcp_server_name t: expected=srv got=other"] ∧
    (realToolsToolRoundtripByProvider demoMismatchWorld [demoMcpToolDef] (some 9999)).callFailed = [] ∧
    (realToolsToolRoundtripByProvider demoMismatchWorld [demoMcpToolDef] (some 9999)).roundtripFailed = [] ∧
    (realToolsToolRoundtripByProvider demoMismatchWorld [demoMcpToolDef] (some 9999)).calledOk = 1 ∧
    (realToolsToolRoundtripByProvider demoMismatchWorld [demoMcpToolDef] (some 9999)).ok = false := by
  refine ⟨rfl, rfl, rfl, rfl, rfl⟩

/-- C6 (amended): an MCP metadata mismatch on a matched tool-use is
recorded as a mismatch entry and does not fail the call itself — the
tool still counts as called, is absent from call_fail, and the
round-trip proceeds — but it does fail the probe result: any run with
ok = true has no recorded mismatches, and the mismatch scenario ends
with ok = false. -/
theorem realTools_meta_mismatch_is_probe_failure :
    (∀ (world : RoundtripWorld) (defs : List ToolDef) (maxTools : Option Int),
      (realToolsToolRoundtripByProvider world defs maxTools).ok = true →
      (realToolsToolRoundtripByProvider world defs maxTools).metaMismatches = []) ∧
    (realToolsToolRoundtripByProvider demoMismatchWorld [demoMcpToolDef] (some 9999)).calledOk = 1 ∧
    (realToolsToolRoundtripByProvider demoMismatchWorld [demoMcpToolDef] (some 9999)).callFailed = [] ∧
    (realToolsToolRoundtripByProvider demoMismatchWorld [demoMcpToolDef] (some 9999)).roundtripOk = 1 ∧
    (realToolsToolRoundtripByProvider demoMismatchWorld [demoMcpToolDef] (some 9999)).ok = false := by
  refine ⟨?_, rfl, rfl, rfl, rfl⟩
  intro world defs maxTools
  simp only [realToolsToolRoundtripByProvider]
  split
  · intro h
    simp at h
  · split
    · intro h
      simp at h
    · intro h
      simp only [Bool.and_eq_true, List.isEmpty_eq_true] at h
      exact h.2

/-- The same scenario with matching MCP metadata echoed back. -/
def demoCleanChat : ChatProbeResult :=
  { text := "",
    nodes := [ResponseNode.toolUse { tool_use_id := "id1", tool_name := "t", mcp_server_name := "srv" }],
    stop_reason := "" }

def demoCleanWorld : RoundtripWorld :=
  { batchChat := fun _ => Except.ok demoCleanChat,
    batchRoundtrip := fun _ => Except.ok { text := "OK-realtools-batch" } }

/-- Witness for the implication of the amended C6 theorem at a concrete
mismatch-free run with ok = true. -/
theorem realTools_meta_mismatch_is_probe_failure_witness :
    (realToolsToolRoundtripByProvider demoCleanWorld [demoMcpToolDef] (some 9999)).ok = true ∧
    (realToolsToolRoundtripByProvider demoCleanWorld [demoMcpToolDef] (some 9999)).metaMismatches = [] :=
  ⟨rfl, realTools_meta_mismatch_is_probe_failure.1 demoCleanWorld [demoMcpToolDef] (some 9999) rfl⟩

end ByokSpec
